import Mathlib

/-!
# Aquarium scene (ICG_2025_HW1/src/main.cpp): embedding and verified properties

The C++ `float` is embedded as an arbitrary linearly ordered field `α`
(exact arithmetic: no rounding, no NaN, no infinities); decimal literals
denote their decimal values.  The functions of the C math library that the
program reaches through glm (`sqrt`, `sin`, `cos`, `atan2`) and the constant
`glm::pi<float>()` are taken as a parameter `M : FloatMath α`; results that
depend on what these functions compute are stated at `realMath`, the real
functions.  Every definition is generic and computable, so it can be
evaluated at `α = ℚ`.
-/

set_option autoImplicit false

namespace Aquarium

/-! ## Vectors and matrices (glm::vec3, glm::vec4, glm::mat4) -/

/-- A `glm::vec3`. -/
@[ext]
structure Vec3 (α : Type) where
  x : α
  y : α
  z : α

/-- A `glm::vec4`. -/
@[ext]
structure Vec4 (α : Type) where
  x : α
  y : α
  z : α
  w : α

/-- A `glm::mat4`, stored by columns as glm does: `c0 = m[0]`, ..., `c3 = m[3]`. -/
@[ext]
structure Mat4 (α : Type) where
  c0 : Vec4 α
  c1 : Vec4 α
  c2 : Vec4 α
  c3 : Vec4 α

/-- The math-library functions and constant the program uses through glm. -/
structure FloatMath (α : Type) where
  sqrt : α → α
  sin : α → α
  cos : α → α
  atan2 : α → α → α
  pi : α

section Generic

variable {α : Type} [LinearOrderedField α]

namespace Vec3

/-- `glm::vec3(s)`: all components equal. -/
def splat (s : α) : Vec3 α := ⟨s, s, s⟩

/-- `a + b` on `glm::vec3`. -/
def add (a b : Vec3 α) : Vec3 α := ⟨a.x + b.x, a.y + b.y, a.z + b.z⟩

/-- `v * s` on `glm::vec3`. -/
def muls (v : Vec3 α) (s : α) : Vec3 α := ⟨v.x * s, v.y * s, v.z * s⟩

/-- `v / s` on `glm::vec3`. -/
def divs (v : Vec3 α) (s : α) : Vec3 α := ⟨v.x / s, v.y / s, v.z / s⟩

end Vec3

namespace Vec4

/-- `a + b` on `glm::vec4`. -/
def add (a b : Vec4 α) : Vec4 α := ⟨a.x + b.x, a.y + b.y, a.z + b.z, a.w + b.w⟩

/-- `v * s` on `glm::vec4`. -/
def muls (v : Vec4 α) (s : α) : Vec4 α := ⟨v.x * s, v.y * s, v.z * s, v.w * s⟩

end Vec4

namespace glm

/-- `glm::max(x, y)`, which is `(x < y) ? y : x`. -/
def max (x y : α) : α := if x < y then y else x

/-- `glm::min(x, y)`, which is `(y < x) ? y : x`. -/
def min (x y : α) : α := if y < x then y else x

/-- `glm::clamp(x, minVal, maxVal)`, which is `min(max(x, minVal), maxVal)`. -/
def clamp (x minVal maxVal : α) : α := glm.min (glm.max x minVal) maxVal

/-- `glm::dot` on `vec3`. -/
def dot (a b : Vec3 α) : α := a.x * b.x + a.y * b.y + a.z * b.z

/-- `glm::length` on `vec3`: `sqrt(dot(v, v))`. -/
def length (M : FloatMath α) (v : Vec3 α) : α := M.sqrt (dot v v)

/-- `glm::length` on `vec2`, the vector given by its two components. -/
def length2 (M : FloatMath α) (x y : α) : α := M.sqrt (x * x + y * y)

/-- `glm::inversesqrt(x)`, which is `1 / sqrt(x)`. -/
def inversesqrt (M : FloatMath α) (x : α) : α := 1 / M.sqrt x

/-- `glm::normalize` on `vec3`: `v * inversesqrt(dot(v, v))`. -/
def normalize (M : FloatMath α) (v : Vec3 α) : Vec3 α := v.muls (inversesqrt M (dot v v))

/-- `glm::mix(x, y, a)` on `vec3`: `x * (1 - a) + y * a`. -/
def mix (x y : Vec3 α) (a : α) : Vec3 α := (x.muls (1 - a)).add (y.muls a)

/-- `glm::radians(degrees)`: degrees times pi / 180. -/
def radians (M : FloatMath α) (degrees : α) : α := degrees * (M.pi / 180)

/-- `glm::mat4(1.0f)`: the identity matrix. -/
def identity : Mat4 α := ⟨⟨1, 0, 0, 0⟩, ⟨0, 1, 0, 0⟩, ⟨0, 0, 1, 0⟩, ⟨0, 0, 0, 1⟩⟩

/-- `glm::translate(m, v)`: `Result = m; Result[3] = m[0]*v[0] + m[1]*v[1] + m[2]*v[2] + m[3]`. -/
def translate (m : Mat4 α) (v : Vec3 α) : Mat4 α :=
  { m with c3 := (((m.c0.muls v.x).add (m.c1.muls v.y)).add (m.c2.muls v.z)).add m.c3 }

/-- `glm::scale(m, v)`: the first three columns scaled by the components of `v`. -/
def scale (m : Mat4 α) (v : Vec3 α) : Mat4 α :=
  ⟨m.c0.muls v.x, m.c1.muls v.y, m.c2.muls v.z, m.c3⟩

/-- `glm::rotate(m, angle, v)`: `m` times the rotation by `angle` about the
normalized axis `v`, computed column by column as in glm. -/
def rotate (M : FloatMath α) (m : Mat4 α) (angle : α) (v : Vec3 α) : Mat4 α :=
  let c := M.cos angle
  let s := M.sin angle
  let axis := normalize M v
  let temp := axis.muls (1 - c)
  let r00 := c + temp.x * axis.x
  let r01 := temp.x * axis.y + s * axis.z
  let r02 := temp.x * axis.z - s * axis.y
  let r10 := temp.y * axis.x - s * axis.z
  let r11 := c + temp.y * axis.y
  let r12 := temp.y * axis.z + s * axis.x
  let r20 := temp.z * axis.x + s * axis.y
  let r21 := temp.z * axis.y - s * axis.x
  let r22 := c + temp.z * axis.z
  ⟨((m.c0.muls r00).add (m.c1.muls r01)).add (m.c2.muls r02),
   ((m.c0.muls r10).add (m.c1.muls r11)).add (m.c2.muls r12),
   ((m.c0.muls r20).add (m.c1.muls r21)).add (m.c2.muls r22),
   m.c3⟩

end glm

/-! ## Settings and GLFW constants -/

/-- `AQUARIUM_BOUND_X = 35.0f`. -/
def AQUARIUM_BOUND_X : α := 35

/-- `AQUARIUM_BOUND_Z = 20.0f`. -/
def AQUARIUM_BOUND_Z : α := 20

/-- `TAIL_ANIMATION_SPEED = 5.0f`. -/
def TAIL_ANIMATION_SPEED : α := 5

/-- `WAVE_FREQUENCY = 1.5f`. -/
def WAVE_FREQUENCY : α := 1.5

/-- `GLFW_RELEASE`. -/
def GLFW_RELEASE : Int := 0
/-- `GLFW_PRESS`. -/
def GLFW_PRESS : Int := 1
/-- `GLFW_REPEAT`. -/
def GLFW_REPEAT : Int := 2
/-- `GLFW_KEY_SPACE`. -/
def GLFW_KEY_SPACE : Int := 32
/-- `GLFW_KEY_A`. -/
def GLFW_KEY_A : Int := 65
/-- `GLFW_KEY_D`. -/
def GLFW_KEY_D : Int := 68
/-- `GLFW_KEY_M`. -/
def GLFW_KEY_M : Int := 77
/-- `GLFW_KEY_S`. -/
def GLFW_KEY_S : Int := 83
/-- `GLFW_KEY_W`. -/
def GLFW_KEY_W : Int := 87
/-- `GLFW_KEY_ESCAPE`. -/
def GLFW_KEY_ESCAPE : Int := 256
/-- `GLFW_KEY_LEFT_SHIFT`. -/
def GLFW_KEY_LEFT_SHIFT : Int := 340

/-! ## Data model -/

/-- The `struct Fish` of a school fish. -/
structure Fish (α : Type) where
  position : Vec3 α
  direction : Vec3 α
  fishType : String
  angle : α
  speed : α
  scale : Vec3 α
  color : Vec3 α

/-- The `struct SeaweedSegment`; `next` is a pointer into the heap of
allocated segments (`none` is `nullptr`). -/
structure SeaweedSegment (α : Type) where
  localPos : Vec3 α
  color : Vec3 α
  phase : α
  scale : Vec3 α
  next : Option Nat

/-- The `struct Seaweed`; `rootSegment` is a pointer into the heap. -/
structure Seaweed (α : Type) where
  basePosition : Vec3 α
  rootSegment : Option Nat
  swayOffset : α

/-- The nested `struct tooth`. -/
structure Tooth (α : Type) where
  pos0 : Vec3 α
  pos1 : Vec3 α

/-- The `struct playerFish`. -/
structure PlayerFish (α : Type) where
  position : Vec3 α
  angle : α
  speed : α
  rotationSpeed : α
  mouthOpen : Bool
  tailAnimation : α
  duration : α
  elapsed : α
  toothUpperLeft : Tooth α
  toothUpperRight : Tooth α
  toothLowerLeft : Tooth α
  toothLowerRight : Tooth α

/-- What the program reads and writes of the `GLFWwindow`: the state of each
key as `glfwGetKey` reports it, and the should-close flag. -/
structure Window where
  keyState : Int → Int
  shouldClose : Bool

/-- One call of `drawModel`: the uniforms set and the mesh drawn. -/
structure DrawCall (α : Type) where
  type : String
  model : Mat4 α
  view : Mat4 α
  projection : Mat4 α
  color : Vec3 α

/-! ## processInput and keyCallback -/

/-- The movement intent `moveDir` that `processInput` accumulates from the held keys. -/
def moveIntent (window : Window) : Vec3 α :=
  let moveDir : Vec3 α := Vec3.splat 0
  let moveDir := if window.keyState GLFW_KEY_W = GLFW_PRESS then { moveDir with z := moveDir.z - 1 } else moveDir
  let moveDir := if window.keyState GLFW_KEY_S = GLFW_PRESS then { moveDir with z := moveDir.z + 1 } else moveDir
  let moveDir := if window.keyState GLFW_KEY_A = GLFW_PRESS then { moveDir with x := moveDir.x - 1 } else moveDir
  let moveDir := if window.keyState GLFW_KEY_D = GLFW_PRESS then { moveDir with x := moveDir.x + 1 } else moveDir
  let moveDir := if window.keyState GLFW_KEY_SPACE = GLFW_PRESS then { moveDir with y := moveDir.y + 1 } else moveDir
  let moveDir := if window.keyState GLFW_KEY_LEFT_SHIFT = GLFW_PRESS then { moveDir with y := moveDir.y - 1 } else moveDir
  moveDir

/-- The facing intent `faceDir` that `processInput` accumulates from the held keys. -/
def faceIntent (window : Window) : Vec3 α :=
  let faceDir : Vec3 α := Vec3.splat 0
  let faceDir := if window.keyState GLFW_KEY_W = GLFW_PRESS then { faceDir with z := faceDir.z + 1 } else faceDir
  let faceDir := if window.keyState GLFW_KEY_S = GLFW_PRESS then { faceDir with z := faceDir.z - 1 } else faceDir
  let faceDir := if window.keyState GLFW_KEY_A = GLFW_PRESS then { faceDir with x := faceDir.x - 1 } else faceDir
  let faceDir := if window.keyState GLFW_KEY_D = GLFW_PRESS then { faceDir with x := faceDir.x + 1 } else faceDir
  faceDir

/-- The displacement `moveDir * speed * deltaTime` that `processInput` adds to
the position when `moveLength > 0`, `moveDir` already divided by `moveLength`. -/
def moveStep (M : FloatMath α) (window : Window) (deltaTime : α) (playerFish : PlayerFish α) : Vec3 α :=
  let moveDir : Vec3 α := moveIntent window
  let moveLength := glm.length M moveDir
  let moveDir := moveDir.divs moveLength
  (moveDir.muls playerFish.speed).muls deltaTime

/-- The player after the movement and facing updates of `processInput`, before
the bounds clamp. -/
def processInputMove (M : FloatMath α) (window : Window) (deltaTime : α)
    (playerFish : PlayerFish α) : PlayerFish α :=
  let moveDir : Vec3 α := moveIntent window
  let faceDir : Vec3 α := faceIntent window
  let moveLength := glm.length M moveDir
  let playerFish :=
    if moveLength > 0 then
      { playerFish with position := playerFish.position.add (moveStep M window deltaTime playerFish) }
    else playerFish
  let faceLength := glm.length2 M faceDir.x faceDir.z
  let playerFish :=
    if faceLength > 0 then
      let horizFaceDir := glm.normalize M ⟨faceDir.x, 0, faceDir.z⟩
      { playerFish with angle := M.atan2 horizFaceDir.z horizFaceDir.x }
    else playerFish
  playerFish

/-- The bounds clamp at the end of `processInput`. -/
def clampToBounds (playerFish : PlayerFish α) : PlayerFish α :=
  let playerFish := { playerFish with position := { playerFish.position with y := glm.max playerFish.position.y 1.5 } }
  let playerFish := { playerFish with position := { playerFish.position with y := glm.clamp playerFish.position.y 1.5 18 } }
  let playerFish := { playerFish with position := { playerFish.position with
    x := glm.clamp playerFish.position.x (-AQUARIUM_BOUND_X + 20) (AQUARIUM_BOUND_X - 20) } }
  let playerFish := { playerFish with position := { playerFish.position with
    z := glm.clamp playerFish.position.z (-AQUARIUM_BOUND_Z) AQUARIUM_BOUND_Z } }
  playerFish

/-- `processInput(window, deltaTime)` as a function of the global `playerFish`. -/
def processInput (M : FloatMath α) (window : Window) (deltaTime : α)
    (playerFish : PlayerFish α) : PlayerFish α :=
  clampToBounds (processInputMove M window deltaTime playerFish)

/-- `keyCallback(window, key, scancode, action, mods)` as a function of the
window's should-close flag and the global `playerFish`. -/
def keyCallback (window : Window) (key scancode action mods : Int)
    (playerFish : PlayerFish α) : Window × PlayerFish α :=
  let _ := scancode
  let _ := mods
  let window :=
    if key = GLFW_KEY_ESCAPE ∧ action = GLFW_PRESS then { window with shouldClose := true } else window
  let playerFish :=
    if key = GLFW_KEY_M ∧ action = GLFW_PRESS then
      let playerFish := { playerFish with mouthOpen := !playerFish.mouthOpen }
      if playerFish.mouthOpen then { playerFish with elapsed := 0 } else playerFish
    else playerFish
  (window, playerFish)

/-! ## updateSchoolFish -/

/-- The body of the loop of `updateSchoolFish`, for one fish. -/
def updateFish (M : FloatMath α) (deltaTime : α) (fish : Fish α) : Fish α :=
  let fish := { fish with position := fish.position.add ((fish.direction.muls fish.speed).muls deltaTime) }
  let fish :=
    if fish.position.x > AQUARIUM_BOUND_X - 20 ∨ fish.position.x < -AQUARIUM_BOUND_X + 20 then
      let fish := { fish with direction := { fish.direction with x := fish.direction.x * -1 } }
      { fish with angle := if fish.direction.x > 0 then 0 else M.pi }
    else fish
  let fish := { fish with position := { fish.position with
    z := glm.clamp fish.position.z (-AQUARIUM_BOUND_Z + 8) (AQUARIUM_BOUND_Z - 8) } }
  let fish := { fish with position := { fish.position with y := glm.max fish.position.y 1 } }
  fish

/-- `updateSchoolFish(deltaTime)` as a function of the global `schoolFish`. -/
def updateSchoolFish (M : FloatMath α) (deltaTime : α) (schoolFish : List (Fish α)) : List (Fish α) :=
  schoolFish.map (updateFish M deltaTime)

/-- The global `schoolFish` after the calls `updateSchoolFish(dt)` for the
delta-times of `deltaTimes`, in order. -/
def updateSchoolFishSeq (M : FloatMath α) (deltaTimes : List α) (schoolFish : List (Fish α)) :
    List (Fish α) :=
  deltaTimes.foldl (fun fishes dt => updateSchoolFish M dt fishes) schoolFish

/-! ## initializeAquarium -/

/-- The globals that `initializeAquarium` and the render loop work on; `heap`
holds the `SeaweedSegment`s allocated with `new`, a pointer being an index. -/
structure World (α : Type) where
  playerFish : PlayerFish α
  seaweeds : List (Seaweed α)
  schoolFish : List (Fish α)
  heap : List (SeaweedSegment α)
  globalTime : α

/-- The globals as their initializers leave them before `main` runs. -/
def initialWorld : World α where
  playerFish :=
    { position := ⟨0, 5, 0⟩, angle := 0, speed := 2, rotationSpeed := 2, mouthOpen := false,
      tailAnimation := 0, duration := 1, elapsed := 0,
      toothUpperLeft := ⟨Vec3.splat 0, Vec3.splat 0⟩, toothUpperRight := ⟨Vec3.splat 0, Vec3.splat 0⟩,
      toothLowerLeft := ⟨Vec3.splat 0, Vec3.splat 0⟩, toothLowerRight := ⟨Vec3.splat 0, Vec3.splat 0⟩ }
  seaweeds := []
  schoolFish := []
  heap := []
  globalTime := 0

/-- A `Fish` as its default member initializers leave it, `position` and
`direction` given. -/
def defaultFish (position direction : Vec3 α) : Fish α :=
  { position := position, direction := direction, fishType := "fish1", angle := 0, speed := 3,
    scale := ⟨2, 2, 2⟩, color := ⟨1, 0.5, 0.3⟩ }

/-- One of the three blocks of `initializeAquarium` that build a school fish;
`r0` is the value of the `rand()` call that picks the direction and `r1 r2 r3`
those of the calls that pick the color. -/
def makeFish (M : FloatMath α) (position : Vec3 α) (fishType : String) (RAND_MAX r0 r1 r2 r3 : Nat) :
    Fish α :=
  let f := defaultFish position (Vec3.splat 0)
  let f := { f with position := position }
  let f := { f with fishType := fishType }
  let f := { f with direction := ⟨if r0 % 2 = 0 then 1 else -1, 0, 0⟩ }
  let f := { f with angle := if f.direction.x > 0 then 0 else M.pi }
  let f := { f with color := ⟨(r1 : α) / (RAND_MAX : α), (r2 : α) / (RAND_MAX : α), (r3 : α) / (RAND_MAX : α)⟩ }
  f

/-- `new SeaweedSegment()`: the heap with one more (zeroed) segment, and the
pointer to it. -/
def newSeaweedSegment (heap : List (SeaweedSegment α)) : List (SeaweedSegment α) × Nat :=
  (heap ++ [⟨Vec3.splat 0, Vec3.splat 0, 0, Vec3.splat 0, none⟩], heap.length)

/-- A write through a pointer, `seg->field = ...`: the segment at `p` replaced by `f` of it. -/
def heapWrite (heap : List (SeaweedSegment α)) (p : Nat) (f : SeaweedSegment α → SeaweedSegment α) :
    List (SeaweedSegment α) :=
  match heap[p]? with
  | some s => heap.set p (f s)
  | none => heap

/-- The state of the inner loop of `initializeAquarium` that builds one plant. -/
structure PlantBuild (α : Type) where
  heap : List (SeaweedSegment α)
  sw : Seaweed α
  prev : Option Nat

/-- The body of the loop `for (int i = 0; i < 7; ++i)` of `initializeAquarium`. -/
def buildSegment (st : PlantBuild α) (i : Nat) : PlantBuild α :=
  let (heap, seg) := newSeaweedSegment st.heap
  let heap := heapWrite heap seg (fun s => { s with localPos := ⟨0, 0, 0⟩ })
  let heap := heapWrite heap seg (fun s => { s with scale := ⟨0.5 - (i : α) * 0.02, 1, 0.5 - (i : α) * 0.02⟩ })
  let heap := heapWrite heap seg (fun s => { s with color := ⟨0, 0.6 - (i : α) * 0.05, 0.1⟩ })
  let heap := heapWrite heap seg (fun s => { s with phase := -(i : α) * 0.35 })
  let heap := heapWrite heap seg (fun s => { s with next := none })
  if i = 0 then
    { heap := heap, sw := { st.sw with rootSegment := some seg }, prev := some seg }
  else
    match st.prev with
    | some prev => { heap := heapWrite heap prev (fun s => { s with next := some seg }), sw := st.sw, prev := some seg }
    | none => { heap := heap, sw := st.sw, prev := some seg }

/-- The body of the loop `for (const auto& pos : seaweedPos)` of
`initializeAquarium`; `r` is the value of the `rand()` call for the sway offset. -/
def buildSeaweed (M : FloatMath α) (RAND_MAX : Nat) (w : World α) (pos : Vec3 α) (r : Nat) : World α :=
  let sw : Seaweed α := { basePosition := Vec3.splat 0, rootSegment := none, swayOffset := 0 }
  let sw := { sw with basePosition := pos }
  let sw := { sw with swayOffset := (r : α) / (RAND_MAX : α) * 3 * M.pi }
  let st := (List.range 7).foldl buildSegment { heap := w.heap, sw := sw, prev := none }
  { w with heap := st.heap, seaweeds := w.seaweeds ++ [st.sw] }

/-- `initializeAquarium()` as a function of the globals; `rand k` is the value
returned by the `k`-th call of `rand()` after the `srand`, the three calls in
one `glm::vec3(...)` taken left to right. -/
def initializeAquarium (M : FloatMath α) (RAND_MAX : Nat) (rand : Nat → Nat) (w : World α) : World α :=
  let playerFish := w.playerFish
  let playerFish := { playerFish with toothUpperLeft := { playerFish.toothUpperLeft with pos0 := ⟨0, 0.5, -0.4⟩ } }
  let playerFish := { playerFish with toothUpperLeft := { playerFish.toothUpperLeft with pos1 := ⟨0.5, 0.5, -0.4⟩ } }
  let playerFish := { playerFish with toothUpperRight := { playerFish.toothUpperRight with pos0 := ⟨0, 0.5, 0.4⟩ } }
  let playerFish := { playerFish with toothUpperRight := { playerFish.toothUpperRight with pos1 := ⟨0.5, 0.5, 0.4⟩ } }
  let playerFish := { playerFish with toothLowerLeft := { playerFish.toothLowerLeft with pos0 := ⟨0, -0.5, -0.4⟩ } }
  let playerFish := { playerFish with toothLowerLeft := { playerFish.toothLowerLeft with pos1 := ⟨0.5, -0.5, -0.4⟩ } }
  let playerFish := { playerFish with toothLowerRight := { playerFish.toothLowerRight with pos0 := ⟨0, -0.5, 0.4⟩ } }
  let playerFish := { playerFish with toothLowerRight := { playerFish.toothLowerRight with pos1 := ⟨0.5, -0.5, 0.4⟩ } }
  let w := { w with playerFish := playerFish }
  let w := { w with schoolFish := [] }
  let f1 := makeFish M ⟨0, 15, 0⟩ "fish1" RAND_MAX (rand 0) (rand 1) (rand 2) (rand 3)
  let w := { w with schoolFish := w.schoolFish ++ [f1] }
  let f2 := makeFish M ⟨7, 3, 0⟩ "fish2" RAND_MAX (rand 4) (rand 5) (rand 6) (rand 7)
  let w := { w with schoolFish := w.schoolFish ++ [f2] }
  let f3 := makeFish M ⟨-3, 7, -7⟩ "fish3" RAND_MAX (rand 8) (rand 9) (rand 10) (rand 11)
  let w := { w with schoolFish := w.schoolFish ++ [f3] }
  let seaweedPos : List (Vec3 α) := [⟨7, 0, 0⟩, ⟨-7, 0, -10⟩, ⟨-7, 0, 5⟩]
  ((List.range seaweedPos.length).zip seaweedPos).foldl
    (fun w kpos => buildSeaweed M RAND_MAX w kpos.2 (rand (12 + kpos.1))) w

/-! ## The render loop of main: seaweed -/

/-- The sway angle of a segment: `0.2f * sin(globalTime * WAVE_FREQUENCY + seg->phase + seaweed.swayOffset)`. -/
def swayAngle (M : FloatMath α) (globalTime : α) (seaweed : Seaweed α) (seg : SeaweedSegment α) : α :=
  0.2 * M.sin (globalTime * WAVE_FREQUENCY + seg.phase + seaweed.swayOffset)

/-- The local anchor `basePos` of a segment. -/
def segBasePos (seg : SeaweedSegment α) : Vec3 α := ⟨0, seg.scale.y / 2, 0⟩

/-- The local anchor `swayPos` of a segment. -/
def segSwayPos (M : FloatMath α) (globalTime : α) (seg : SeaweedSegment α) : Vec3 α :=
  ⟨0.1 * M.sin (globalTime + seg.phase), seg.scale.y / 2, 0⟩

/-- The local anchor `finalPos = glm::mix(basePos, swayPos, -0.8f)` of a segment. -/
def segFinalPos (M : FloatMath α) (globalTime : α) (seg : SeaweedSegment α) : Vec3 α :=
  glm.mix (segBasePos seg) (segSwayPos M globalTime seg) (-0.8)

/-- The matrix `currentModel` after the `glm::rotate` of one iteration of the
`while (seg)` loop: the matrix the segment is drawn with. -/
def segCurrentModel (M : FloatMath α) (globalTime : α) (seaweed : Seaweed α) (seg : SeaweedSegment α)
    (currentModel : Mat4 α) : Mat4 α :=
  glm.rotate M currentModel (swayAngle M globalTime seaweed seg) ⟨0, 0, 1⟩

/-- The draw call of one iteration of the `while (seg)` loop, `currentModel`
being the matrix at the start of the iteration. -/
def segDraw (M : FloatMath α) (globalTime : α) (view projection : Mat4 α) (seaweed : Seaweed α)
    (seg : SeaweedSegment α) (currentModel : Mat4 α) : DrawCall α :=
  let currentModel := segCurrentModel M globalTime seaweed seg currentModel
  let finalPos := segFinalPos M globalTime seg
  let segModel := glm.translate currentModel finalPos
  let segModel := glm.scale segModel seg.scale
  ⟨"cube", segModel, view, projection, seg.color⟩

/-- The matrix `currentModel` at the end of one iteration of the `while (seg)` loop. -/
def segNextModel (M : FloatMath α) (globalTime : α) (seaweed : Seaweed α) (seg : SeaweedSegment α)
    (currentModel : Mat4 α) : Mat4 α :=
  glm.translate (segCurrentModel M globalTime seaweed seg currentModel) ⟨0, seg.scale.y, 0⟩

/-- The loop `while (seg) { ... seg = seg->next; }` of the render loop, run for at
most `fuel` iterations: `none` when the fuel runs out before `seg` is null (or
`seg` dangles), otherwise the draw calls issued, in order. -/
def drawSegments (M : FloatMath α) (heap : List (SeaweedSegment α)) (globalTime : α)
    (view projection : Mat4 α) (seaweed : Seaweed α) :
    Nat → Option Nat → Mat4 α → Option (List (DrawCall α))
  | _, none, _ => some []
  | 0, some _, _ => none
  | fuel + 1, some p, currentModel =>
    match heap[p]? with
    | none => none
    | some seg =>
      (drawSegments M heap globalTime view projection seaweed fuel seg.next
        (segNextModel M globalTime seaweed seg currentModel)).map
        (fun draws => segDraw M globalTime view projection seaweed seg currentModel :: draws)

/-- The body of `for (const auto& seaweed : seaweeds)` of the render loop. -/
def drawSeaweed (M : FloatMath α) (heap : List (SeaweedSegment α)) (globalTime : α)
    (view projection : Mat4 α) (fuel : Nat) (seaweed : Seaweed α) : Option (List (DrawCall α)) :=
  let currentModel := glm.translate glm.identity seaweed.basePosition
  let seg := seaweed.rootSegment
  drawSegments M heap globalTime view projection seaweed fuel seg currentModel

/-- The segments met when following `next` from `seg` until null, in order, with
at most `fuel` steps; `none` when the fuel runs out or a pointer dangles. -/
def chainFrom (heap : List (SeaweedSegment α)) : Nat → Option Nat → Option (List (SeaweedSegment α))
  | _, none => some []
  | 0, some _ => none
  | fuel + 1, some p =>
    match heap[p]? with
    | none => none
    | some seg => (chainFrom heap fuel seg.next).map (fun segs => seg :: segs)

/-- The matrices `currentModel` the segments of a chain are drawn with, in
order, `currentModel` being the matrix before the first segment. -/
def chainModels (M : FloatMath α) (globalTime : α) (seaweed : Seaweed α) :
    List (SeaweedSegment α) → Mat4 α → List (Mat4 α)
  | [], _ => []
  | seg :: segs, currentModel =>
    segCurrentModel M globalTime seaweed seg currentModel ::
      chainModels M globalTime seaweed segs (segNextModel M globalTime seaweed seg currentModel)

/-- The draw calls the `while (seg)` loop issues for the segments of a chain,
in order, `currentModel` being the matrix before the first segment. -/
def chainDraws (M : FloatMath α) (globalTime : α) (view projection : Mat4 α) (seaweed : Seaweed α) :
    List (SeaweedSegment α) → Mat4 α → List (DrawCall α)
  | [], _ => []
  | seg :: segs, currentModel =>
    segDraw M globalTime view projection seaweed seg currentModel ::
      chainDraws M globalTime view projection seaweed segs (segNextModel M globalTime seaweed seg currentModel)

/-- The segment that iteration `i` of the inner loop of `initializeAquarium`
leaves in the heap, with its final `next`. -/
def plantSegment (i : Nat) (next : Option Nat) : SeaweedSegment α :=
  ⟨⟨0, 0, 0⟩, ⟨0, 0.6 - (i : α) * 0.05, 0.1⟩, -(i : α) * 0.35,
    ⟨0.5 - (i : α) * 0.02, 1, 0.5 - (i : α) * 0.02⟩, next⟩

/-- The seven segments of a plant whose root is allocated at address `n`. -/
def plantSegments (n : Nat) : List (SeaweedSegment α) :=
  [plantSegment 0 (some (n + 1)), plantSegment 1 (some (n + 2)), plantSegment 2 (some (n + 3)),
   plantSegment 3 (some (n + 4)), plantSegment 4 (some (n + 5)), plantSegment 5 (some (n + 6)),
   plantSegment 6 none]

/-- The matrix `currentModel` at the start of the iteration that follows the
segments of `segs`, `currentModel` being the matrix before the first of them. -/
def modelAfter (M : FloatMath α) (globalTime : α) (seaweed : Seaweed α)
    (segs : List (SeaweedSegment α)) (currentModel : Mat4 α) : Mat4 α :=
  segs.foldl (fun m seg => segNextModel M globalTime seaweed seg m) currentModel

/-! ### The kinematic chain as the specification describes it -/

/-- The sum of the sway angles of the first `k` segments of a chain, so that
`swayAngleSum ... (i + 1)` is the sum over the segments 0..i. -/
def swayAngleSum (M : FloatMath α) (globalTime : α) (seaweed : Seaweed α)
    (chain : List (SeaweedSegment α)) (k : Nat) : α :=
  ((chain.take k).map (swayAngle M globalTime seaweed)).sum

/-- The rotation about the Z axis by `theta`, applied to the vector `v`. -/
def rotateAboutZ (M : FloatMath α) (theta : α) (v : Vec3 α) : Vec3 α :=
  ⟨M.cos theta * v.x - M.sin theta * v.y, M.sin theta * v.x + M.cos theta * v.y, v.z⟩

/-- The matrix whose rotation part is the rotation about the Z axis by `theta`
and whose origin (last column) is the point `origin`. -/
def zRotationAt (M : FloatMath α) (theta : α) (origin : Vec3 α) : Mat4 α :=
  ⟨⟨M.cos theta, M.sin theta, 0, 0⟩, ⟨-M.sin theta, M.cos theta, 0, 0⟩, ⟨0, 0, 1, 0⟩,
   ⟨origin.x, origin.y, origin.z, 1⟩⟩

/-- The origin of segment `i` of a chain: the plant's base position, carried
through the translations by `(0, scale.y, 0)` of the segments before `i`, each
rotated by the sum of the sway angles up to and including its own segment. -/
def chainOrigin (M : FloatMath α) (globalTime : α) (seaweed : Seaweed α)
    (chain : List (SeaweedSegment α)) : Nat → Vec3 α
  | 0 => seaweed.basePosition
  | i + 1 =>
    (chainOrigin M globalTime seaweed chain i).add
      (rotateAboutZ M (swayAngleSum M globalTime seaweed chain (i + 1))
        ⟨0, ((chain[i]?).map (fun seg => seg.scale.y)).getD 0, 0⟩)

/-! ## drawPlayerFish -/

/-- The interpolation progress `t = glm::min(0.85f, playerFish.elapsed / playerFish.duration)`
that `drawPlayerFish` computes after it has advanced `elapsed`. -/
def toothProgress (playerFish : PlayerFish α) : α :=
  glm.min 0.85 (playerFish.elapsed / playerFish.duration)

/-- The matrix `fishModel` of `drawPlayerFish`. -/
def fishModel (M : FloatMath α) (position : Vec3 α) (angle : α) : Mat4 α :=
  let model : Mat4 α := glm.identity
  let model := glm.translate model position
  let model := glm.rotate M model angle ⟨0, 1, 0⟩
  model

/-- The matrix `headModel` of `drawPlayerFish`. -/
def headModel (M : FloatMath α) (position : Vec3 α) (angle : α) : Mat4 α :=
  let upperJawConnection : Vec3 α := ⟨3, 0.3, 0⟩
  let headModel := glm.translate (fishModel M position angle) upperJawConnection
  let headModel := glm.rotate M headModel (glm.radians M (-20)) ⟨0, 0, 1⟩
  let headModel := glm.translate headModel ⟨0, 0, 0⟩
  let headModel := glm.scale headModel ⟨2.7, 1.5, 2⟩
  headModel

/-- The matrix `headForTeeth` of `drawPlayerFish`. -/
def headForTeeth (M : FloatMath α) (position : Vec3 α) (angle : α) : Mat4 α :=
  let headForTeeth := glm.translate (headModel M position angle) ⟨0.7, -1.9, 0⟩
  let headForTeeth := glm.rotate M headForTeeth (glm.radians M (-20)) ⟨0, 0, 1⟩
  let headForTeeth := glm.translate headForTeeth ⟨-1.25, 0.7, 0⟩
  headForTeeth

/-- The matrix `mouthForTeeth` of `drawPlayerFish`. -/
def mouthForTeeth (M : FloatMath α) (position : Vec3 α) (angle : α) : Mat4 α :=
  let lowerJawConnection : Vec3 α := ⟨2.3, -1, 0⟩
  let mouthForTeeth := glm.translate (fishModel M position angle) lowerJawConnection
  let mouthForTeeth := glm.rotate M mouthForTeeth (glm.radians M (-10)) ⟨0, 0, 1⟩
  let mouthForTeeth := glm.translate mouthForTeeth ⟨0.5, 0.75, 0⟩
  mouthForTeeth

/-- The draw call of one tooth: translated from `base` to
`glm::mix(tooth.pos0, tooth.pos1, t)` and scaled by `size`. -/
def toothDraw (view projection : Mat4 α) (base : Mat4 α) (tooth : Tooth α) (t : α) (size : Vec3 α) :
    DrawCall α :=
  let toothModel := glm.translate base (glm.mix tooth.pos0 tooth.pos1 t)
  let toothModel := glm.scale toothModel size
  ⟨"cube", toothModel, view, projection, ⟨1, 1, 1⟩⟩

/-- The block `if (mouthOpen) { ... }` of `drawPlayerFish`: the player with
`elapsed` advanced, and the four tooth draw calls. -/
def drawTeeth (M : FloatMath α) (position : Vec3 α) (angle : α) (view projection : Mat4 α)
    (deltaTime : α) (playerFish : PlayerFish α) : PlayerFish α × List (DrawCall α) :=
  let playerFish := { playerFish with elapsed := playerFish.elapsed + deltaTime }
  let t := toothProgress playerFish
  let headForTeeth := headForTeeth M position angle
  let mouthForTeeth := mouthForTeeth M position angle
  (playerFish,
   [toothDraw view projection headForTeeth playerFish.toothUpperRight t ⟨0.15, 0.3, 0.1⟩,
    toothDraw view projection headForTeeth playerFish.toothUpperLeft t ⟨0.15, 0.3, 0.1⟩,
    toothDraw view projection mouthForTeeth playerFish.toothLowerRight t ⟨0.2, 0.4, 0.2⟩,
    toothDraw view projection mouthForTeeth playerFish.toothLowerLeft t ⟨0.2, 0.4, 0.2⟩])

/-- The array `tailScales` of `drawPlayerFish`. -/
def tailScales : List α := [2, 2.5, 3, 3.5]

/-- The body of the tail loop `for (int i = 0; i < 4; ++i)` of `drawPlayerFish`,
on the pair of `tailModel` and the draw calls issued so far. -/
def drawTailSegment (M : FloatMath α) (tailPhase : α) (view projection : Mat4 α)
    (st : Mat4 α × List (DrawCall α)) (i : Nat) : Mat4 α × List (DrawCall α) :=
  let tailModel := st.1
  let sway : α := if i < 5 then 0.3 * M.sin (tailPhase + (i : α) * 0.5) else 0
  let tailModel := glm.rotate M tailModel sway ⟨0, 1, 0⟩
  let segModel := glm.translate tailModel ⟨-(tailScales.getD i 0) / 2, 0, 0⟩
  let draw : DrawCall α :=
    if i = 3 then
      let upperLobe := glm.translate segModel ⟨0.8, 0, 0⟩
      let upperLobe := glm.scale upperLobe ⟨1.5, 6, 0.5⟩
      ⟨"cube", upperLobe, view, projection, ⟨0.4, 0.4, 0.6⟩⟩
    else
      let segModel := glm.scale segModel ⟨tailScales.getD i 0, 1.5 - (i : α) * 0.25, 2.2 - (i : α) * 0.3⟩
      ⟨"cube", segModel, view, projection, ⟨0.4, 0.4, 0.6⟩⟩
  let tailModel := glm.translate tailModel ⟨-(tailScales.getD i 0) * 0.8, 0, 0⟩
  (tailModel, st.2 ++ [draw])

/-- `drawPlayerFish(position, angle, tailPhase, view, projection, mouthOpen, deltaTime)`
as a function of the global `playerFish`: the global after the call, and the
draw calls issued, in order. -/
def drawPlayerFish (M : FloatMath α) (position : Vec3 α) (angle tailPhase : α)
    (view projection : Mat4 α) (mouthOpen : Bool) (deltaTime : α) (playerFish : PlayerFish α) :
    PlayerFish α × List (DrawCall α) :=
  let fishModel := fishModel M position angle
  let bodyModel := glm.scale fishModel ⟨5, 3, 2.5⟩
  let draws : List (DrawCall α) := [⟨"cube", bodyModel, view, projection, ⟨0.4, 0.4, 0.6⟩⟩]
  let upperJawConnection : Vec3 α := ⟨3, 0.3, 0⟩
  let lowerJawConnection : Vec3 α := ⟨2.3, -1, 0⟩
  let draws := draws ++ [⟨"cube", headModel M position angle, view, projection, ⟨0.4, 0.4, 0.6⟩⟩]
  let mouthModel := glm.translate fishModel lowerJawConnection
  let mouthRotation := if mouthOpen then glm.radians M (-20) else glm.radians M 10
  let mouthModel := glm.rotate M mouthModel mouthRotation ⟨0, 0, 1⟩
  let (playerFish, draws) :=
    if mouthOpen then
      let r := drawTeeth M position angle view projection deltaTime playerFish
      (r.1, draws ++ r.2)
    else (playerFish, draws)
  let mouthModel := glm.scale mouthModel ⟨2.5, 0.6, 1.8⟩
  let draws := draws ++ [⟨"cube", mouthModel, view, projection, ⟨1, 1, 1⟩⟩]
  let eyeBaseModel := glm.translate fishModel upperJawConnection
  let eyeBaseModel := glm.rotate M eyeBaseModel (glm.radians M (-20)) ⟨0, 0, 1⟩
  let eyeLeftModel := glm.translate eyeBaseModel ⟨0.3, 0.2, -1⟩
  let eyeLeftModel := glm.scale eyeLeftModel ⟨0.4, 0.4, 0.2⟩
  let draws := draws ++ [⟨"cube", eyeLeftModel, view, projection, ⟨1, 1, 1⟩⟩]
  let eyeRightModel := glm.translate eyeBaseModel ⟨0.3, 0.2, 1⟩
  let eyeRightModel := glm.scale eyeRightModel ⟨0.4, 0.4, 0.2⟩
  let draws := draws ++ [⟨"cube", eyeRightModel, view, projection, ⟨1, 1, 1⟩⟩]
  let pupilLeftModel := glm.translate eyeBaseModel ⟨0.3, 0.2, -1.1⟩
  let pupilLeftModel := glm.scale pupilLeftModel ⟨0.2, 0.2, 0.2⟩
  let draws := draws ++ [⟨"cube", pupilLeftModel, view, projection, ⟨0, 0, 0⟩⟩]
  let pupilRightModel := glm.translate eyeBaseModel ⟨0.3, 0.2, 1.1⟩
  let pupilRightModel := glm.scale pupilRightModel ⟨0.2, 0.2, 0.2⟩
  let draws := draws ++ [⟨"cube", pupilRightModel, view, projection, ⟨0, 0, 0⟩⟩]
  let leftFinModel := glm.translate fishModel ⟨0.8, -1, -1.5⟩
  let leftFinModel := glm.rotate M leftFinModel (glm.radians M (-30)) ⟨1, 1, 0⟩
  let leftFinModel := glm.scale leftFinModel ⟨3, 0.5, 1⟩
  let draws := draws ++ [⟨"cube", leftFinModel, view, projection, ⟨0.35, 0.35, 0.55⟩⟩]
  let rightFinModel := glm.translate fishModel ⟨0.8, -1, 1.5⟩
  let rightFinModel := glm.rotate M rightFinModel (glm.radians M 30) ⟨1, 1, 0⟩
  let rightFinModel := glm.scale rightFinModel ⟨3, 0.5, 1⟩
  let draws := draws ++ [⟨"cube", rightFinModel, view, projection, ⟨0.35, 0.35, 0.55⟩⟩]
  let dorsalFinModel := glm.translate fishModel ⟨1, 1.5, 0⟩
  let dorsalFinModel := glm.rotate M dorsalFinModel (glm.radians M 60) ⟨0, 0, 1⟩
  let dorsalFinModel := glm.scale dorsalFinModel ⟨1, 1.5, 1⟩
  let draws := draws ++ [⟨"cube", dorsalFinModel, view, projection, ⟨0.35, 0.35, 0.55⟩⟩]
  let tailModel := glm.translate fishModel ⟨-2, 0, 0⟩
  let tail := (List.range 4).foldl (drawTailSegment M tailPhase view projection) (tailModel, draws)
  (playerFish, tail.2)

/-- The part of one iteration of the render loop of `main` that concerns the
player: `tailAnimation` advanced, `drawPlayerFish` called on the player's own
fields, then `processInput`. -/
def playerFrame (M : FloatMath α) (view projection : Mat4 α) (window : Window) (deltaTime : α)
    (playerFish : PlayerFish α) : PlayerFish α × List (DrawCall α) :=
  let playerFish := { playerFish with tailAnimation := playerFish.tailAnimation + deltaTime * TAIL_ANIMATION_SPEED }
  let r := drawPlayerFish M playerFish.position playerFish.angle playerFish.tailAnimation view projection
    playerFish.mouthOpen deltaTime playerFish
  (processInput M window deltaTime r.1, r.2)

/-- The player after each of the frames of `frames` (each the key state and
the delta-time of the frame) and the draw calls of that frame, in order, with
no key event in between. -/
def playerFrames (M : FloatMath α) (view projection : Mat4 α) :
    List (Window × α) → PlayerFish α → List (PlayerFish α × List (DrawCall α))
  | [], _ => []
  | (window, deltaTime) :: frames, playerFish =>
    let r := playerFrame M view projection window deltaTime playerFish
    r :: playerFrames M view projection frames r.1

/-- The four tooth draw calls of a frame: the third to sixth draw calls that
`drawPlayerFish` issues when the mouth is open. -/
def toothDraws (draws : List (DrawCall α)) : List (DrawCall α) := (draws.drop 2).take 4

/-- The point `lerp(pos0, pos1, t)` of a tooth, written out by coordinates:
`pos0 * (1 - t) + pos1 * t`. -/
def toothPoint (tooth : Tooth α) (t : α) : Vec3 α :=
  ⟨tooth.pos0.x * (1 - t) + tooth.pos1.x * t,
   tooth.pos0.y * (1 - t) + tooth.pos1.y * t,
   tooth.pos0.z * (1 - t) + tooth.pos1.z * t⟩

/-- The four tooth draw calls as they are when the teeth of `playerFish` are
drawn at progress `t` under the fish matrix of `position` and `angle`: white
cubes, the two upper teeth under `headForTeeth` with size (0.15, 0.3, 0.1),
the two lower teeth under `mouthForTeeth` with size (0.2, 0.4, 0.2), each
translated to its `toothPoint`; right tooth first. -/
def toothDrawsAt (M : FloatMath α) (view projection : Mat4 α) (position : Vec3 α) (angle : α)
    (playerFish : PlayerFish α) (t : α) : List (DrawCall α) :=
  [⟨"cube", glm.scale (glm.translate (headForTeeth M position angle)
      (toothPoint playerFish.toothUpperRight t)) ⟨0.15, 0.3, 0.1⟩, view, projection, ⟨1, 1, 1⟩⟩,
   ⟨"cube", glm.scale (glm.translate (headForTeeth M position angle)
      (toothPoint playerFish.toothUpperLeft t)) ⟨0.15, 0.3, 0.1⟩, view, projection, ⟨1, 1, 1⟩⟩,
   ⟨"cube", glm.scale (glm.translate (mouthForTeeth M position angle)
      (toothPoint playerFish.toothLowerRight t)) ⟨0.2, 0.4, 0.2⟩, view, projection, ⟨1, 1, 1⟩⟩,
   ⟨"cube", glm.scale (glm.translate (mouthForTeeth M position angle)
      (toothPoint playerFish.toothLowerLeft t)) ⟨0.2, 0.4, 0.2⟩, view, projection, ⟨1, 1, 1⟩⟩]

/-! ## Predicates the properties are stated with -/

/-- The heading of a school fish matches the sign of its direction:
`direction.x` is +1 or -1, the angle is 0 when it is positive and pi when it
is negative. -/
def headingMatches (M : FloatMath α) (fish : Fish α) : Prop :=
  (fish.direction.x = 1 ∨ fish.direction.x = -1) ∧
    (fish.direction.x > 0 → fish.angle = 0) ∧ (fish.direction.x < 0 → fish.angle = M.pi)

/-- The school fish of the scenario: at x = 14.5, swimming in +X with speed 3. -/
def scenarioFish : Fish α := defaultFish ⟨14.5, 15, 0⟩ ⟨1, 0, 0⟩

/-! ## processInput with faults -/

/-- `v / s` on `glm::vec3`, a division by zero being a fault (`none`). -/
def Vec3.divsChecked (v : Vec3 α) (s : α) : Option (Vec3 α) :=
  if s = 0 then none else some (v.divs s)

/-- `glm::normalize` on `vec3`, the normalization of a vector of length zero
being a fault (`none`). -/
def glm.normalizeChecked (M : FloatMath α) (v : Vec3 α) : Option (Vec3 α) :=
  if glm.length M v = 0 then none else some (glm.normalize M v)

/-- `processInput(window, deltaTime)` as a function of the global `playerFish`,
with faults: `none` when the run divides by a zero `moveLength` or normalizes
a zero-length facing vector, otherwise the player after the call. -/
def processInputChecked (M : FloatMath α) (window : Window) (deltaTime : α)
    (playerFish : PlayerFish α) : Option (PlayerFish α) :=
  let moveDir : Vec3 α := moveIntent window
  let faceDir : Vec3 α := faceIntent window
  let moveLength := glm.length M moveDir
  (if moveLength > 0 then
      (moveDir.divsChecked moveLength).map (fun moveDir =>
        { playerFish with
          position := playerFish.position.add ((moveDir.muls playerFish.speed).muls deltaTime) })
    else some playerFish).bind (fun playerFish =>
  let faceLength := glm.length2 M faceDir.x faceDir.z
  (if faceLength > 0 then
      (glm.normalizeChecked M ⟨faceDir.x, 0, faceDir.z⟩).map (fun horizFaceDir =>
        { playerFish with angle := M.atan2 horizFaceDir.z horizFaceDir.x })
    else some playerFish).map clampToBounds)

/-- The position lies in the box the bounds clamp of `processInput` keeps the
player in. -/
def insideBounds (p : Vec3 α) : Prop :=
  (-15 ≤ p.x ∧ p.x ≤ 15) ∧ (1.5 ≤ p.y ∧ p.y ≤ 18) ∧ (-20 ≤ p.z ∧ p.z ≤ 20)

/-- The product `m * v` of a `glm::mat4` and a `glm::vec4`. -/
def Mat4.mulVec (m : Mat4 α) (v : Vec4 α) : Vec4 α :=
  (((m.c0.muls v.x).add (m.c1.muls v.y)).add (m.c2.muls v.z)).add (m.c3.muls v.w)

end Generic

/-- The math library in exact real arithmetic: the real square root, sine and
cosine, `atan2(y, x)` as the argument of `x + y i`, and the real pi. -/
noncomputable def realMath : FloatMath ℝ where
  sqrt := Real.sqrt
  sin := Real.sin
  cos := Real.cos
  atan2 := fun y x => Complex.arg ⟨x, y⟩
  pi := Real.pi

/-- The player as `initializeAquarium` leaves it, after one press of M: mouth
open, `elapsed` = 0. -/
def openedPlayer {α : Type} [LinearOrderedField α] (M : FloatMath α) : PlayerFish α :=
  (keyCallback ⟨fun _ => GLFW_RELEASE, false⟩ GLFW_KEY_M 0 GLFW_PRESS 0
    (initializeAquarium M 32767 (fun _ => 0) initialWorld).playerFish).2

/-- A window in which exactly the keys of `keys` are held. -/
def windowHoldingKeys (keys : List Int) : Window :=
  ⟨fun k => if k ∈ keys then GLFW_PRESS else GLFW_RELEASE, false⟩

/-- The point `p` lies on the ray from `basePos` through `swayPos`, beyond
`swayPos`: it is `mix(basePos, swayPos, s)` for a factor `s > 1`. -/
def beyondSway {α : Type} [LinearOrderedField α] (basePos swayPos p : Vec3 α) : Prop :=
  ∃ s : α, 1 < s ∧ p = glm.mix basePos swayPos s

/-- The point `p` lies between the two anchors, ends included: it is
`mix(basePos, swayPos, s)` for a factor `0 <= s <= 1`. -/
def betweenAnchors {α : Type} [LinearOrderedField α] (basePos swayPos p : Vec3 α) : Prop :=
  ∃ s : α, 0 ≤ s ∧ s ≤ 1 ∧ p = glm.mix basePos swayPos s

/-- The point `p` lies on the line through the anchors on the far side of
`basePos`, away from `swayPos`: it is `mix(basePos, swayPos, s)` for a factor `s < 0`. -/
def beyondBase {α : Type} [LinearOrderedField α] (basePos swayPos p : Vec3 α) : Prop :=
  ∃ s : α, s < 0 ∧ p = glm.mix basePos swayPos s

/-- The root segment of a plant as `initializeAquarium` fills it (`i = 0`). -/
def rootSegmentExample {α : Type} [LinearOrderedField α] : SeaweedSegment α :=
  ⟨⟨0, 0, 0⟩, ⟨0, 0.6, 0.1⟩, 0, ⟨0.5, 1, 0.5⟩, some 1⟩

/-- A window in which no key is held. -/
def idleWindow : Window := ⟨fun _ => GLFW_RELEASE, false⟩

/-- A window in which only the key `key` is held. -/
def windowHolding (key : Int) : Window := ⟨fun k => if k = key then GLFW_PRESS else GLFW_RELEASE, false⟩

/-! ## Theorems -/

section Theorems

variable {α : Type} [LinearOrderedField α]

theorem glm_clamp_bounds (x lo hi : α) (h : lo ≤ hi) :
    lo ≤ glm.clamp x lo hi ∧ glm.clamp x lo hi ≤ hi := by
  unfold glm.clamp glm.min glm.max
  split_ifs <;> constructor <;> linarith

/-- C1: after `processInput` the player position satisfies x in [-15, 15],
y in [1.5, 18] and z in [-20, 20], for every player state, every key state,
every deltaTime and whatever the math-library functions return. -/
theorem processInput_position_in_bounds (M : FloatMath α) (window : Window) (deltaTime : α)
    (playerFish : PlayerFish α) :
    let p := (processInput M window deltaTime playerFish).position
    (-15 ≤ p.x ∧ p.x ≤ 15) ∧ (1.5 ≤ p.y ∧ p.y ≤ 18) ∧ (-20 ≤ p.z ∧ p.z ≤ 20) := by
  intro p
  have hx := glm_clamp_bounds (processInputMove M window deltaTime playerFish).position.x
    (-AQUARIUM_BOUND_X + 20) (AQUARIUM_BOUND_X - 20) (by norm_num [AQUARIUM_BOUND_X])
  have hy := glm_clamp_bounds
    (glm.max (processInputMove M window deltaTime playerFish).position.y 1.5) (1.5 : α) 18
    (by norm_num)
  have hz := glm_clamp_bounds (processInputMove M window deltaTime playerFish).position.z
    (-AQUARIUM_BOUND_Z) (AQUARIUM_BOUND_Z : α) (by norm_num [AQUARIUM_BOUND_Z])
  have hX : (-AQUARIUM_BOUND_X + 20 : α) = -15 := by norm_num [AQUARIUM_BOUND_X]
  have hX' : (AQUARIUM_BOUND_X - 20 : α) = 15 := by norm_num [AQUARIUM_BOUND_X]
  have hZ : (AQUARIUM_BOUND_Z : α) = 20 := rfl
  simp only [p, processInput, clampToBounds]
  rw [hX, hX'] at hx ⊢
  rw [hZ] at hz ⊢
  exact ⟨hx, hy, hz⟩

/-! ### School fish -/

/-- C2: the code negates `direction.x` again without a new crossing. The
scenario fish (x = 14.5, +X, speed 3) crosses the boundary in an update with
delta-time 0.2 (x = 15.1, direction.x = -1); the next update, with delta-time
0.01, leaves it at x = 15.07, still beyond 15, and negates direction.x a second
time (back to +1) although the fish never came back inside. -/
theorem updateSchoolFish_negates_again_outside (M : FloatMath α) :
    (updateSchoolFishSeq M [0.2] [scenarioFish]).map (fun f => (f.position.x, f.direction.x))
        = [((15.1 : α), (-1 : α))] ∧
    (updateSchoolFishSeq M [0.2, 0.01] [scenarioFish]).map (fun f => (f.position.x, f.direction.x))
        = [((15.07 : α), (1 : α))] := by
  constructor <;>
    norm_num [updateSchoolFishSeq, updateSchoolFish, updateFish, scenarioFish, defaultFish,
      Vec3.add, Vec3.muls, AQUARIUM_BOUND_X]

theorem makeFish_headingMatches (M : FloatMath α) (position : Vec3 α) (fishType : String)
    (RAND_MAX r0 r1 r2 r3 : Nat) :
    headingMatches M (makeFish M position fishType RAND_MAX r0 r1 r2 r3) := by
  unfold headingMatches makeFish
  by_cases h : r0 % 2 = 0 <;> simp [h]

theorem updateFish_direction (M : FloatMath α) (deltaTime : α) (fish : Fish α) :
    let x := fish.position.x + fish.direction.x * fish.speed * deltaTime
    (updateFish M deltaTime fish).direction.x
      = if x > 15 ∨ x < -15 then -fish.direction.x else fish.direction.x := by
  intro x
  have hX : (AQUARIUM_BOUND_X - 20 : α) = 15 := by norm_num [AQUARIUM_BOUND_X]
  have hX' : (-AQUARIUM_BOUND_X + 20 : α) = -15 := by norm_num [AQUARIUM_BOUND_X]
  simp only [updateFish, Vec3.add, Vec3.muls, hX, hX']
  by_cases h : x > 15 ∨ x < -15
  · rw [if_pos h, if_pos h]; simp
  · rw [if_neg h, if_neg h]

theorem updateFish_angle (M : FloatMath α) (deltaTime : α) (fish : Fish α) :
    let x := fish.position.x + fish.direction.x * fish.speed * deltaTime
    (updateFish M deltaTime fish).angle
      = if x > 15 ∨ x < -15 then (if -fish.direction.x > 0 then 0 else M.pi) else fish.angle := by
  intro x
  have hX : (AQUARIUM_BOUND_X - 20 : α) = 15 := by norm_num [AQUARIUM_BOUND_X]
  have hX' : (-AQUARIUM_BOUND_X + 20 : α) = -15 := by norm_num [AQUARIUM_BOUND_X]
  simp only [updateFish, Vec3.add, Vec3.muls, hX, hX']
  by_cases h : x > 15 ∨ x < -15
  · rw [if_pos h, if_pos h]; simp
  · rw [if_neg h, if_neg h]

theorem updateFish_headingMatches (M : FloatMath α) (deltaTime : α) (fish : Fish α)
    (h : headingMatches M fish) : headingMatches M (updateFish M deltaTime fish) := by
  obtain ⟨hd, hpos, hneg⟩ := h
  unfold headingMatches
  rw [updateFish_direction, updateFish_angle]
  by_cases hc : fish.position.x + fish.direction.x * fish.speed * deltaTime > 15 ∨
      fish.position.x + fish.direction.x * fish.speed * deltaTime < -15
  · simp only [if_pos hc]
    rcases hd with hd | hd <;> rw [hd] <;> norm_num
  · simp only [if_neg hc]
    exact ⟨hd, hpos, hneg⟩

theorem initializeAquarium_schoolFish (M : FloatMath α) (RAND_MAX : Nat) (rand : Nat → Nat)
    (w : World α) :
    (initializeAquarium M RAND_MAX rand w).schoolFish =
      [makeFish M ⟨0, 15, 0⟩ "fish1" RAND_MAX (rand 0) (rand 1) (rand 2) (rand 3),
       makeFish M ⟨7, 3, 0⟩ "fish2" RAND_MAX (rand 4) (rand 5) (rand 6) (rand 7),
       makeFish M ⟨-3, 7, -7⟩ "fish3" RAND_MAX (rand 8) (rand 9) (rand 10) (rand 11)] := rfl

theorem updateFish_position_x (M : FloatMath α) (deltaTime : α) (fish : Fish α) :
    (updateFish M deltaTime fish).position.x
      = fish.position.x + fish.direction.x * fish.speed * deltaTime := by
  simp only [updateFish, Vec3.add, Vec3.muls]
  split_ifs <;> rfl

/-- C3: the heading of every school fish matches the sign of its direction
(`headingMatches`). It holds for the three fish `initializeAquarium` builds,
whatever `rand()` returns (direction.x is +1 for an even `rand()`, -1 for an
odd one). Every `updateSchoolFish` step keeps the number of fish and preserves
`headingMatches`, for every deltaTime; the fish at index `i` of the result has
the x of the fish at index `i` integrated by `direction.x * speed * deltaTime`,
and when that x is beyond +-15 its `direction.x` is the negated one and its
angle matches the new sign, otherwise direction and angle are kept. The
scenario fish (x = 14.5, +X, speed 3) with deltaTime 0.2 ends at x = 15.1 with
direction.x = -1 and angle pi. -/
theorem schoolFish_heading_matches_direction (M : FloatMath α) (RAND_MAX : Nat) (rand : Nat → Nat)
    (w : World α) (deltaTime : α) (schoolFish : List (Fish α))
    (h : ∀ f ∈ schoolFish, headingMatches M f) :
    ((initializeAquarium M RAND_MAX rand w).schoolFish.map (fun f => f.direction.x)
        = [if rand 0 % 2 = 0 then 1 else -1, if rand 4 % 2 = 0 then 1 else -1,
           if rand 8 % 2 = 0 then 1 else -1] ∧
      ∀ f ∈ (initializeAquarium M RAND_MAX rand w).schoolFish, headingMatches M f) ∧
    ((updateSchoolFish M deltaTime schoolFish).length = schoolFish.length ∧
      ∀ f ∈ updateSchoolFish M deltaTime schoolFish, headingMatches M f) ∧
    (∀ (i : Nat) (f : Fish α), schoolFish[i]? = some f →
      ∃ g, (updateSchoolFish M deltaTime schoolFish)[i]? = some g ∧
        g.position.x = f.position.x + f.direction.x * f.speed * deltaTime ∧
        ((g.position.x > 15 ∨ g.position.x < -15) →
          g.direction.x = -f.direction.x ∧ g.angle = (if g.direction.x > 0 then 0 else M.pi)) ∧
        (¬(g.position.x > 15 ∨ g.position.x < -15) →
          g.direction.x = f.direction.x ∧ g.angle = f.angle)) ∧
    (updateSchoolFish M 0.2 [scenarioFish]).map (fun f => (f.position.x, f.direction.x, f.angle))
      = [((15.1 : α), (-1 : α), M.pi)] := by
  refine ⟨⟨?_, ?_⟩, ⟨?_, ?_⟩, ?_, ?_⟩
  · rw [initializeAquarium_schoolFish]
    simp [makeFish]
  · rw [initializeAquarium_schoolFish]
    intro f hf
    simp only [List.mem_cons, List.mem_singleton, List.not_mem_nil, or_false] at hf
    rcases hf with rfl | rfl | rfl <;> exact makeFish_headingMatches M _ _ _ _ _ _ _
  · simp [updateSchoolFish]
  · intro f hf
    obtain ⟨g, hg, rfl⟩ := List.mem_map.mp hf
    exact updateFish_headingMatches M deltaTime g (h g hg)
  · intro i f hf
    refine ⟨updateFish M deltaTime f, ?_, updateFish_position_x M deltaTime f, ?_, ?_⟩
    · simp [updateSchoolFish, hf]
    · intro hc
      rw [updateFish_position_x] at hc
      have h1 := updateFish_direction M deltaTime f
      have h2 := updateFish_angle M deltaTime f
      simp only [if_pos hc] at h1 h2
      exact ⟨h1, by rw [h2, h1]⟩
    · intro hc
      rw [updateFish_position_x] at hc
      have h1 := updateFish_direction M deltaTime f
      have h2 := updateFish_angle M deltaTime f
      simp only [if_neg hc] at h1 h2
      exact ⟨h1, h2⟩
  · norm_num [updateSchoolFish, updateFish, scenarioFish, defaultFish, Vec3.add, Vec3.muls,
      AQUARIUM_BOUND_X]

/-- Witness of C3: the scenario fish satisfies `headingMatches`; one
`updateSchoolFish` step with deltaTime 0.2 on the school made of that fish
gives one fish, at x = 15.1 with direction.x = -1 and angle pi, which still
satisfies `headingMatches`. -/
theorem schoolFish_heading_matches_direction_witness :
    headingMatches realMath (scenarioFish : Fish ℝ) ∧
      (updateSchoolFish realMath 0.2 [(scenarioFish : Fish ℝ)]).length = 1 ∧
      (updateSchoolFish realMath 0.2 [(scenarioFish : Fish ℝ)]).map
          (fun f => (f.position.x, f.direction.x, f.angle)) = [((15.1 : ℝ), (-1 : ℝ), Real.pi)] ∧
      (∀ f ∈ updateSchoolFish realMath 0.2 [(scenarioFish : Fish ℝ)], headingMatches realMath f) :=
  have h0 : headingMatches realMath (scenarioFish : Fish ℝ) := by
    simp [headingMatches, scenarioFish, defaultFish]
  have h := schoolFish_heading_matches_direction realMath 32767 (fun _ => 0) initialWorld 0.2
    [scenarioFish] (by simpa using h0)
  ⟨h0, h.2.1.1, h.2.2.2, h.2.1.2⟩

/-! ### keyCallback -/

/-- C5: `keyCallback` resets `elapsed` exactly on the open-transition edge. A
press of M flips `mouthOpen`, sets `elapsed` to 0 when the new `mouthOpen` is
true and leaves it unchanged when the new `mouthOpen` is false; every other
event (another key, or M with a repeat or release action) leaves the whole
player, `mouthOpen` and `elapsed` included, unchanged. -/
theorem keyCallback_resets_elapsed_on_open_edge (window : Window) (key scancode action mods : Int)
    (playerFish : PlayerFish α) :
    (key = GLFW_KEY_M ∧ action = GLFW_PRESS →
      (keyCallback window key scancode action mods playerFish).2.mouthOpen = !playerFish.mouthOpen ∧
      ((keyCallback window key scancode action mods playerFish).2.mouthOpen = true →
        (keyCallback window key scancode action mods playerFish).2.elapsed = 0) ∧
      ((keyCallback window key scancode action mods playerFish).2.mouthOpen = false →
        (keyCallback window key scancode action mods playerFish).2.elapsed = playerFish.elapsed)) ∧
    (¬(key = GLFW_KEY_M ∧ action = GLFW_PRESS) →
      (keyCallback window key scancode action mods playerFish).2 = playerFish) := by
  constructor
  · intro h
    simp only [keyCallback, if_pos h]
    cases hm : playerFish.mouthOpen <;> simp
  · intro h
    simp only [keyCallback, if_neg h]

/-- Witness of C5: a press of M on the initial player (mouth closed) opens the
mouth with `elapsed = 0`, and a release of M changes nothing. -/
theorem keyCallback_resets_elapsed_on_open_edge_witness :
    (keyCallback idleWindow GLFW_KEY_M 0 GLFW_PRESS 0 (initialWorld : World ℚ).playerFish).2.mouthOpen = true ∧
    (keyCallback idleWindow GLFW_KEY_M 0 GLFW_PRESS 0 (initialWorld : World ℚ).playerFish).2.elapsed = 0 ∧
    (keyCallback idleWindow GLFW_KEY_M 0 GLFW_RELEASE 0 (initialWorld : World ℚ).playerFish).2
      = (initialWorld : World ℚ).playerFish :=
  have h := keyCallback_resets_elapsed_on_open_edge idleWindow GLFW_KEY_M 0 GLFW_PRESS 0
    (initialWorld : World ℚ).playerFish
  have h1 := h.1 ⟨rfl, rfl⟩
  ⟨h1.1, h1.2.1 h1.1,
    (keyCallback_resets_elapsed_on_open_edge idleWindow GLFW_KEY_M 0 GLFW_RELEASE 0
      (initialWorld : World ℚ).playerFish).2 (by decide)⟩

/-! ### Tooth interpolation -/

theorem toothProgress_le (playerFish : PlayerFish α) : toothProgress playerFish ≤ 0.85 := by
  unfold toothProgress glm.min
  split_ifs with h
  · exact le_of_lt h
  · exact le_refl _

theorem toothProgress_mono (p q : PlayerFish α) (hp : p.duration = 1) (hq : q.duration = 1)
    (h : p.elapsed ≤ q.elapsed) : toothProgress p ≤ toothProgress q := by
  unfold toothProgress glm.min
  rw [hp, hq, div_one, div_one]
  split_ifs <;> linarith

theorem mix_ne_pos1 (tooth : Tooth α) (t : α) (ht : t ≤ 0.85) (h : tooth.pos0 ≠ tooth.pos1) :
    glm.mix tooth.pos0 tooth.pos1 t ≠ tooth.pos1 := by
  intro hmix
  apply h
  have h1 : (1 - t) ≠ 0 := by
    have : (0.85 : α) < 1 := by norm_num
    intro h0
    linarith
  have hx := congrArg Vec3.x hmix
  have hy := congrArg Vec3.y hmix
  have hz := congrArg Vec3.z hmix
  simp only [glm.mix, Vec3.add, Vec3.muls] at hx hy hz
  ext
  · exact mul_right_cancel₀ h1 (by linarith)
  · exact mul_right_cancel₀ h1 (by linarith)
  · exact mul_right_cancel₀ h1 (by linarith)

theorem processInput_keeps_mouth (M : FloatMath α) (window : Window) (deltaTime : α)
    (playerFish : PlayerFish α) :
    (processInput M window deltaTime playerFish).elapsed = playerFish.elapsed ∧
    (processInput M window deltaTime playerFish).duration = playerFish.duration ∧
    (processInput M window deltaTime playerFish).mouthOpen = playerFish.mouthOpen ∧
    (processInput M window deltaTime playerFish).toothUpperRight = playerFish.toothUpperRight ∧
    (processInput M window deltaTime playerFish).toothUpperLeft = playerFish.toothUpperLeft ∧
    (processInput M window deltaTime playerFish).toothLowerRight = playerFish.toothLowerRight ∧
    (processInput M window deltaTime playerFish).toothLowerLeft = playerFish.toothLowerLeft := by
  simp only [processInput, clampToBounds, processInputMove]
  split_ifs <;> exact ⟨rfl, rfl, rfl, rfl, rfl, rfl, rfl⟩

theorem toothProgress_congr (p q : PlayerFish α) (he : p.elapsed = q.elapsed)
    (hd : p.duration = q.duration) : toothProgress p = toothProgress q := by
  unfold toothProgress
  rw [he, hd]

theorem toothDrawsAt_congr (M : FloatMath α) (view projection : Mat4 α) (position : Vec3 α)
    (angle t : α) (p q : PlayerFish α)
    (h1 : p.toothUpperRight = q.toothUpperRight) (h2 : p.toothUpperLeft = q.toothUpperLeft)
    (h3 : p.toothLowerRight = q.toothLowerRight) (h4 : p.toothLowerLeft = q.toothLowerLeft) :
    toothDrawsAt M view projection position angle p t
      = toothDrawsAt M view projection position angle q t := by
  unfold toothDrawsAt
  rw [h1, h2, h3, h4]

theorem drawTail_draws (M : FloatMath α) (tailPhase : α) (view projection : Mat4 α) (l : List Nat)
    (st : Mat4 α × List (DrawCall α)) :
    ∃ rest, (l.foldl (drawTailSegment M tailPhase view projection) st).2 = st.2 ++ rest := by
  induction l generalizing st with
  | nil => exact ⟨[], by simp⟩
  | cons i l ih =>
    obtain ⟨rest, hrest⟩ := ih (drawTailSegment M tailPhase view projection st i)
    obtain ⟨d, hd⟩ : ∃ d, (drawTailSegment M tailPhase view projection st i).2 = st.2 ++ [d] :=
      ⟨_, rfl⟩
    refine ⟨d :: rest, ?_⟩
    rw [List.foldl_cons, hrest, hd]
    simp

theorem drawPlayerFish_open (M : FloatMath α) (position : Vec3 α) (angle tailPhase : α)
    (view projection : Mat4 α) (deltaTime : α) (playerFish : PlayerFish α) :
    (drawPlayerFish M position angle tailPhase view projection true deltaTime playerFish).1
      = (drawTeeth M position angle view projection deltaTime playerFish).1 ∧
    toothDraws (drawPlayerFish M position angle tailPhase view projection true deltaTime playerFish).2
      = (drawTeeth M position angle view projection deltaTime playerFish).2 := by
  constructor
  · simp [drawPlayerFish]
  · simp only [drawPlayerFish, if_true]
    obtain ⟨rest, hrest⟩ := drawTail_draws M tailPhase view projection (List.range 4)
      (glm.translate (fishModel M position angle) ⟨-2, 0, 0⟩, _)
    rw [hrest]
    simp [toothDraws, drawTeeth]

theorem drawTeeth_spec (M : FloatMath α) (position : Vec3 α) (angle : α)
    (view projection : Mat4 α) (deltaTime : α) (playerFish : PlayerFish α) :
    (drawTeeth M position angle view projection deltaTime playerFish).1.elapsed
      = playerFish.elapsed + deltaTime ∧
    (drawTeeth M position angle view projection deltaTime playerFish).1.duration
      = playerFish.duration ∧
    (drawTeeth M position angle view projection deltaTime playerFish).1.mouthOpen
      = playerFish.mouthOpen ∧
    (drawTeeth M position angle view projection deltaTime playerFish).2
      = toothDrawsAt M view projection position angle
          (drawTeeth M position angle view projection deltaTime playerFish).1
          (toothProgress (drawTeeth M position angle view projection deltaTime playerFish).1) :=
  ⟨rfl, rfl, rfl, rfl⟩

theorem playerFrame_open (M : FloatMath α) (view projection : Mat4 α) (window : Window)
    (deltaTime : α) (playerFish : PlayerFish α) (hOpen : playerFish.mouthOpen = true) :
    (playerFrame M view projection window deltaTime playerFish).1.elapsed
      = playerFish.elapsed + deltaTime ∧
    (playerFrame M view projection window deltaTime playerFish).1.duration = playerFish.duration ∧
    (playerFrame M view projection window deltaTime playerFish).1.mouthOpen = true ∧
    toothDraws (playerFrame M view projection window deltaTime playerFish).2
      = toothDrawsAt M view projection playerFish.position playerFish.angle
          (playerFrame M view projection window deltaTime playerFish).1
          (toothProgress (playerFrame M view projection window deltaTime playerFish).1) ∧
    ((playerFrame M view projection window deltaTime playerFish).1.toothUpperRight
        = playerFish.toothUpperRight ∧
      (playerFrame M view projection window deltaTime playerFish).1.toothUpperLeft
        = playerFish.toothUpperLeft ∧
      (playerFrame M view projection window deltaTime playerFish).1.toothLowerRight
        = playerFish.toothLowerRight ∧
      (playerFrame M view projection window deltaTime playerFish).1.toothLowerLeft
        = playerFish.toothLowerLeft) := by
  have key : ∀ (p : PlayerFish α) (tailPhase : α), p.mouthOpen = true →
      (processInput M window deltaTime
        (drawPlayerFish M p.position p.angle tailPhase view projection p.mouthOpen deltaTime p).1).elapsed
        = p.elapsed + deltaTime ∧
      (processInput M window deltaTime
        (drawPlayerFish M p.position p.angle tailPhase view projection p.mouthOpen deltaTime p).1).duration
        = p.duration ∧
      (processInput M window deltaTime
        (drawPlayerFish M p.position p.angle tailPhase view projection p.mouthOpen deltaTime p).1).mouthOpen
        = true ∧
      toothDraws (drawPlayerFish M p.position p.angle tailPhase view projection p.mouthOpen deltaTime p).2
        = toothDrawsAt M view projection p.position p.angle
          (processInput M window deltaTime
            (drawPlayerFish M p.position p.angle tailPhase view projection p.mouthOpen deltaTime p).1)
          (toothProgress (processInput M window deltaTime
            (drawPlayerFish M p.position p.angle tailPhase view projection p.mouthOpen deltaTime p).1)) ∧
      ((processInput M window deltaTime
          (drawPlayerFish M p.position p.angle tailPhase view projection p.mouthOpen deltaTime p).1).toothUpperRight
          = p.toothUpperRight ∧
        (processInput M window deltaTime
          (drawPlayerFish M p.position p.angle tailPhase view projection p.mouthOpen deltaTime p).1).toothUpperLeft
          = p.toothUpperLeft ∧
        (processInput M window deltaTime
          (drawPlayerFish M p.position p.angle tailPhase view projection p.mouthOpen deltaTime p).1).toothLowerRight
          = p.toothLowerRight ∧
        (processInput M window deltaTime
          (drawPlayerFish M p.position p.angle tailPhase view projection p.mouthOpen deltaTime p).1).toothLowerLeft
          = p.toothLowerLeft) := by
    intro p tailPhase hp
    rw [hp]
    obtain ⟨hd1, hd2⟩ := drawPlayerFish_open M p.position p.angle tailPhase view projection deltaTime p
    obtain ⟨ht1, ht2, ht3, ht4⟩ := drawTeeth_spec M p.position p.angle view projection deltaTime p
    obtain ⟨hk1, hk2, hk3, hk4, hk5, hk6, hk7⟩ := processInput_keeps_mouth M window deltaTime
      (drawPlayerFish M p.position p.angle tailPhase view projection true deltaTime p).1
    rw [hd1] at hk1 hk2 hk3 hk4 hk5 hk6 hk7
    rw [hd1, hd2]
    refine ⟨hk1.trans ht1, hk2.trans ht2, hk3.trans (ht3.trans hp), ?_, ?_⟩
    · rw [ht4, toothProgress_congr _ _ hk1 hk2]
      exact (toothDrawsAt_congr M view projection p.position p.angle _ _ _ hk4 hk5 hk6 hk7).symm
    · exact ⟨hk4, hk5, hk6, hk7⟩
  exact key { playerFish with
    tailAnimation := playerFish.tailAnimation + deltaTime * TAIL_ANIMATION_SPEED } _ hOpen

theorem playerFrames_chain (M : FloatMath α) (view projection : Mat4 α)
    (frames : List (Window × α)) (playerFish : PlayerFish α)
    (hOpen : playerFish.mouthOpen = true) (hDur : playerFish.duration = 1)
    (hdt : ∀ fr ∈ frames, 0 ≤ fr.2) :
    List.Chain (· ≤ ·) (toothProgress playerFish)
      ((playerFrames M view projection frames playerFish).map (fun r => toothProgress r.1)) := by
  induction frames generalizing playerFish with
  | nil => exact List.Chain.nil
  | cons fr frames ih =>
    obtain ⟨window, deltaTime⟩ := fr
    have h0 : 0 ≤ deltaTime := hdt (window, deltaTime) (List.mem_cons_self _ _)
    obtain ⟨he, hd, ho, _, _⟩ := playerFrame_open M view projection window deltaTime playerFish hOpen
    simp only [playerFrames, List.map_cons]
    refine List.Chain.cons ?_ ?_
    · exact toothProgress_mono _ _ hDur (hd.trans hDur) (by rw [he]; linarith)
    · exact ih _ ho (hd.trans hDur) (fun fr hfr => hdt fr (List.mem_cons_of_mem _ hfr))

theorem toothProgress_eq_min (playerFish : PlayerFish α) (hDur : playerFish.duration = 1) :
    toothProgress playerFish = min 0.85 playerFish.elapsed := by
  unfold toothProgress glm.min
  rw [hDur, div_one, min_def]
  split_ifs <;> linarith

theorem toothPoint_ne_pos1 (tooth : Tooth α) (t : α) (ht : t ≤ 0.85) (h : tooth.pos0 ≠ tooth.pos1) :
    toothPoint tooth t ≠ tooth.pos1 :=
  mix_ne_pos1 tooth t ht h

theorem playerFrames_getElem (M : FloatMath α) (view projection : Mat4 α)
    (frames : List (Window × α)) (playerFish : PlayerFish α)
    (hOpen : playerFish.mouthOpen = true) (hDur : playerFish.duration = 1) :
    (playerFrames M view projection frames playerFish).length = frames.length ∧
    ∀ (k : Nat) (prev : PlayerFish α) (r : PlayerFish α × List (DrawCall α)),
      (playerFish :: (playerFrames M view projection frames playerFish).map Prod.fst)[k]? = some prev →
      (playerFrames M view projection frames playerFish)[k]? = some r →
      r.1.elapsed = playerFish.elapsed + ((frames.take (k + 1)).map Prod.snd).sum ∧
      r.1.duration = 1 ∧
      toothDraws r.2
        = toothDrawsAt M view projection prev.position prev.angle playerFish (toothProgress r.1) := by
  induction frames generalizing playerFish with
  | nil =>
    refine ⟨rfl, ?_⟩
    intro k prev r _ hr
    simp [playerFrames] at hr
  | cons fr frames ih =>
    obtain ⟨window, deltaTime⟩ := fr
    obtain ⟨he, hd, ho, hdraws, hteeth⟩ :=
      playerFrame_open M view projection window deltaTime playerFish hOpen
    obtain ⟨ihlen, ihk⟩ := ih (playerFrame M view projection window deltaTime playerFish).1 ho
      (hd.trans hDur)
    refine ⟨?_, ?_⟩
    · simp only [playerFrames, List.length_cons, ihlen]
    · intro k prev r hprev hr
      cases k with
      | zero =>
        simp only [List.getElem?_cons_zero, Option.some.injEq] at hprev
        simp only [playerFrames, List.getElem?_cons_zero, Option.some.injEq] at hr
        subst hprev
        subst hr
        refine ⟨?_, hd.trans hDur, ?_⟩
        · rw [he]; simp
        · rw [hdraws]
          exact toothDrawsAt_congr M view projection _ _ _ _ _ hteeth.1 hteeth.2.1 hteeth.2.2.1
            hteeth.2.2.2
      | succ k =>
        simp only [playerFrames, List.map_cons, List.getElem?_cons_succ] at hprev hr
        obtain ⟨h1, h2, h3⟩ := ihk k prev r hprev hr
        refine ⟨?_, h2, ?_⟩
        · rw [h1, he]
          simp only [List.take_succ_cons, List.map_cons, List.sum_cons]
          ring
        · rw [h3]
          exact toothDrawsAt_congr M view projection _ _ _ _ _ hteeth.1 hteeth.2.1 hteeth.2.2.1
            hteeth.2.2.2

/-- C4: while the mouth stays open (frames of the render loop with no key
event in between, the delta-times all >= 0, duration = 1.0), there is one
entry per frame, and in frame `k` the counter `elapsed` is the initial one
plus the delta-times of frames 0..k, the progress `t` that `drawPlayerFish`
computes is `min(0.85, elapsed)`, never above 0.85, and the third to sixth
draw calls of the frame are the four teeth, each a white cube translated to
`toothPoint = pos0 * (1 - t) + pos1 * t` under the matrices of the player's
position and angle before the frame; that point is never `pos1` for a tooth
whose endpoints differ. The progress is non-decreasing from frame to frame.
With `elapsed = 0` at opening, a frame of delta-time 0.5 has `elapsed = 0.5`,
`t = 0.5` and draws each tooth at `toothPoint` of 0.5. -/
theorem toothProgress_bounded_and_monotone (M : FloatMath α) (view projection : Mat4 α)
    (frames : List (Window × α)) (playerFish : PlayerFish α)
    (hOpen : playerFish.mouthOpen = true) (hDur : playerFish.duration = 1)
    (hdt : ∀ fr ∈ frames, 0 ≤ fr.2) :
    (playerFrames M view projection frames playerFish).length = frames.length ∧
    (∀ (k : Nat) (prev : PlayerFish α) (r : PlayerFish α × List (DrawCall α)),
      (playerFish :: (playerFrames M view projection frames playerFish).map Prod.fst)[k]? = some prev →
      (playerFrames M view projection frames playerFish)[k]? = some r →
      r.1.elapsed = playerFish.elapsed + ((frames.take (k + 1)).map Prod.snd).sum ∧
      toothProgress r.1 = min 0.85 r.1.elapsed ∧
      toothProgress r.1 ≤ 0.85 ∧
      toothDraws r.2
        = toothDrawsAt M view projection prev.position prev.angle playerFish (min 0.85 r.1.elapsed) ∧
      (∀ tooth : Tooth α, tooth.pos0 ≠ tooth.pos1 →
        toothPoint tooth (min 0.85 r.1.elapsed) ≠ tooth.pos1)) ∧
    List.Chain' (· ≤ ·)
      ((playerFrames M view projection frames playerFish).map (fun r => toothProgress r.1)) ∧
    (playerFish.elapsed = 0 → ∀ window : Window,
      (playerFrame M view projection window 0.5 playerFish).1.elapsed = 0.5 ∧
      toothProgress (playerFrame M view projection window 0.5 playerFish).1 = 0.5 ∧
      toothDraws (playerFrame M view projection window 0.5 playerFish).2
        = toothDrawsAt M view projection playerFish.position playerFish.angle playerFish 0.5) := by
  obtain ⟨hlen, hk⟩ := playerFrames_getElem M view projection frames playerFish hOpen hDur
  refine ⟨hlen, ?_, ?_, ?_⟩
  · intro k prev r hprev hr
    obtain ⟨h1, h2, h3⟩ := hk k prev r hprev hr
    have ht := toothProgress_eq_min r.1 h2
    refine ⟨h1, ht, toothProgress_le r.1, by rw [h3, ht], ?_⟩
    intro tooth hne
    rw [← ht]
    exact toothPoint_ne_pos1 tooth _ (toothProgress_le r.1) hne
  · have h := playerFrames_chain M view projection frames playerFish hOpen hDur hdt
    have h' : List.Chain' (· ≤ ·) (toothProgress playerFish ::
        (playerFrames M view projection frames playerFish).map (fun r => toothProgress r.1)) := h
    exact h'.tail
  · intro h0 window
    obtain ⟨he, hd, _, hdraws, hteeth⟩ :=
      playerFrame_open M view projection window 0.5 playerFish hOpen
    have he' : (playerFrame M view projection window 0.5 playerFish).1.elapsed = 0.5 := by
      rw [he, h0, zero_add]
    have ht : toothProgress (playerFrame M view projection window 0.5 playerFish).1 = 0.5 := by
      rw [toothProgress_eq_min _ (hd.trans hDur), he']
      norm_num
    refine ⟨he', ht, ?_⟩
    rw [hdraws, ht]
    exact toothDrawsAt_congr M view projection _ _ _ _ _ hteeth.1 hteeth.2.1 hteeth.2.2.1
      hteeth.2.2.2

/-- Witness of C4: the player right after a press of M (mouth open, duration 1,
`elapsed` = 0) and two frames of delta-time 0.5 each: two entries, with
progress 0.5 in the first frame and 0.85 in the second. -/
theorem toothProgress_bounded_and_monotone_witness :
    (openedPlayer realMath).mouthOpen = true ∧ (openedPlayer realMath).duration = 1 ∧
      (playerFrames realMath glm.identity glm.identity [(idleWindow, 0.5), (idleWindow, 0.5)]
        (openedPlayer realMath)).length = 2 ∧
      (playerFrames realMath glm.identity glm.identity [(idleWindow, 0.5), (idleWindow, 0.5)]
        (openedPlayer realMath)).map (fun r => toothProgress r.1) = [0.5, 0.85] := by
  have h := toothProgress_bounded_and_monotone realMath glm.identity glm.identity
    [(idleWindow, 0.5), (idleWindow, 0.5)] (openedPlayer realMath) rfl rfl (by norm_num)
  obtain ⟨e0, t0, _⟩ := h.2.1 0 (openedPlayer realMath)
    (playerFrame realMath glm.identity glm.identity idleWindow 0.5 (openedPlayer realMath)) rfl rfl
  obtain ⟨e1, t1, _⟩ := h.2.1 1
    (playerFrame realMath glm.identity glm.identity idleWindow 0.5 (openedPlayer realMath)).1
    (playerFrame realMath glm.identity glm.identity idleWindow 0.5
      (playerFrame realMath glm.identity glm.identity idleWindow 0.5 (openedPlayer realMath)).1)
    rfl rfl
  have hz : (openedPlayer realMath).elapsed = 0 := rfl
  refine ⟨rfl, rfl, h.1, ?_⟩
  simp only [playerFrames, List.map_cons, List.map_nil]
  rw [t0, t1, e0, e1, hz]
  norm_num

/-! ### Movement of the player -/

theorem dot_self_pos (v : Vec3 ℝ) (h : v ≠ Vec3.splat 0) : 0 < glm.dot v v := by
  have hnn : 0 ≤ glm.dot v v := by
    unfold glm.dot
    nlinarith [mul_self_nonneg v.x, mul_self_nonneg v.y, mul_self_nonneg v.z]
  rcases hnn.lt_or_eq with hlt | heq
  · exact hlt
  · exfalso
    apply h
    unfold glm.dot at heq
    have hx : v.x = 0 := by nlinarith [mul_self_nonneg v.x, mul_self_nonneg v.y, mul_self_nonneg v.z]
    have hy : v.y = 0 := by nlinarith [mul_self_nonneg v.x, mul_self_nonneg v.y, mul_self_nonneg v.z]
    have hz : v.z = 0 := by nlinarith [mul_self_nonneg v.x, mul_self_nonneg v.y, mul_self_nonneg v.z]
    ext <;> simp [Vec3.splat, hx, hy, hz]

theorem moveLength_pos (window : Window) (h : moveIntent window ≠ (Vec3.splat 0 : Vec3 ℝ)) :
    0 < glm.length realMath (moveIntent window : Vec3 ℝ) :=
  Real.sqrt_pos.mpr (dot_self_pos _ h)

/-- C6: for every key state whose movement intent is non-zero, `processInput`
adds to the position, before the clamp, the displacement `moveStep`, and the
length of that displacement is `|speed * deltaTime|`, which is
`speed * deltaTime` when that product is non-negative (as it is for the
player's speed 2 and a frame delta >= 0): the same for one, two or three
active axes. -/
theorem moveStep_magnitude (window : Window) (deltaTime : ℝ) (playerFish : PlayerFish ℝ)
    (h : moveIntent window ≠ (Vec3.splat 0 : Vec3 ℝ)) :
    (processInputMove realMath window deltaTime playerFish).position
      = playerFish.position.add (moveStep realMath window deltaTime playerFish) ∧
    glm.length realMath (moveStep realMath window deltaTime playerFish)
      = |playerFish.speed * deltaTime| ∧
    (0 ≤ playerFish.speed * deltaTime →
      glm.length realMath (moveStep realMath window deltaTime playerFish)
        = playerFish.speed * deltaTime) := by
  have hL := moveLength_pos window h
  have hlen : glm.length realMath (moveStep realMath window deltaTime playerFish)
      = |playerFish.speed * deltaTime| := by
    have hd := dot_self_pos _ h
    have hsq : glm.length realMath (moveIntent window : Vec3 ℝ)
        * glm.length realMath (moveIntent window : Vec3 ℝ) = glm.dot (moveIntent window) (moveIntent window) :=
      Real.mul_self_sqrt hd.le
    have hne : glm.length realMath (moveIntent window : Vec3 ℝ) ≠ 0 := ne_of_gt hL
    have hdot : glm.dot (moveStep realMath window deltaTime playerFish)
        (moveStep realMath window deltaTime playerFish)
        = (playerFish.speed * deltaTime) ^ 2 := by
      simp only [moveStep, glm.dot, Vec3.muls, Vec3.divs]
      simp only [glm.dot] at hsq
      field_simp
      nlinarith [hsq]
    show Real.sqrt _ = _
    rw [hdot]
    exact Real.sqrt_sq_eq_abs _
  refine ⟨?_, hlen, fun h0 => by rw [hlen, abs_of_nonneg h0]⟩
  simp only [processInputMove]
  rw [if_pos hL]
  split_ifs <;> rfl

/-- Witness of C6: with W and D held (a diagonal move), speed 2 and deltaTime
0.1 the displacement has length 0.2. -/
theorem moveStep_magnitude_witness :
    moveIntent (windowHoldingKeys [GLFW_KEY_W, GLFW_KEY_D]) ≠ (Vec3.splat 0 : Vec3 ℝ) ∧
      glm.length realMath (moveStep realMath (windowHoldingKeys [GLFW_KEY_W, GLFW_KEY_D]) 0.1
        (initialWorld : World ℝ).playerFish) = 2 * 0.1 :=
  have hne : moveIntent (windowHoldingKeys [GLFW_KEY_W, GLFW_KEY_D]) ≠ (Vec3.splat 0 : Vec3 ℝ) := by
    intro h
    have hx := congrArg Vec3.x h
    norm_num [moveIntent, windowHoldingKeys, Vec3.splat, GLFW_KEY_W, GLFW_KEY_D, GLFW_KEY_S,
      GLFW_KEY_A, GLFW_KEY_SPACE, GLFW_KEY_LEFT_SHIFT, GLFW_PRESS, GLFW_RELEASE] at hx
  ⟨hne, (moveStep_magnitude (windowHoldingKeys [GLFW_KEY_W, GLFW_KEY_D]) 0.1
    (initialWorld : World ℝ).playerFish hne).2.2 (by norm_num [initialWorld])⟩

/-! ### Seaweed sway -/

/-- C8: the sway angle `0.2 * sin(t * WAVE_FREQUENCY + phase + swayOffset)` is
periodic in time with period `2 * pi / WAVE_FREQUENCY` (WAVE_FREQUENCY = 1.5),
for every segment, plant and time; with phase 0 and offset 0 at time 1 it is
`0.2 * sin(1.5)`. -/
theorem swayAngle_periodic (globalTime : ℝ) (seaweed : Seaweed ℝ) (seg : SeaweedSegment ℝ) :
    swayAngle realMath (globalTime + 2 * Real.pi / WAVE_FREQUENCY) seaweed seg
      = swayAngle realMath globalTime seaweed seg ∧
    (WAVE_FREQUENCY : ℝ) = 1.5 ∧
    swayAngle realMath 1 { seaweed with swayOffset := 0 } { seg with phase := 0 }
      = 0.2 * Real.sin 1.5 := by
  refine ⟨?_, rfl, ?_⟩
  · simp only [swayAngle, realMath]
    have h : (globalTime + 2 * Real.pi / WAVE_FREQUENCY) * WAVE_FREQUENCY + seg.phase + seaweed.swayOffset
        = (globalTime * WAVE_FREQUENCY + seg.phase + seaweed.swayOffset) + 2 * Real.pi := by
      have hw : (WAVE_FREQUENCY : ℝ) ≠ 0 := by norm_num [WAVE_FREQUENCY]
      field_simp
      ring
    rw [h, Real.sin_add_two_pi]
  · simp [swayAngle, realMath, WAVE_FREQUENCY]

/-- C10 as stated fails: for the root segment at globalTime = pi / 2 the swayed
anchor differs from the base anchor (the sine is 1), yet `finalPos` is not
beyond `swayPos` on the ray from `basePos` through `swayPos`. -/
theorem segFinalPos_not_beyondSway :
    realMath.sin (Real.pi / 2 + (rootSegmentExample : SeaweedSegment ℝ).phase) ≠ 0 ∧
    ¬ beyondSway (segBasePos (rootSegmentExample : SeaweedSegment ℝ))
        (segSwayPos realMath (Real.pi / 2) rootSegmentExample)
        (segFinalPos realMath (Real.pi / 2) rootSegmentExample) := by
  have hs : realMath.sin (Real.pi / 2 + (rootSegmentExample : SeaweedSegment ℝ).phase) = 1 := by
    simp [realMath, rootSegmentExample]
  refine ⟨by rw [hs]; norm_num, ?_⟩
  rintro ⟨s, hs1, heq⟩
  have hx := congrArg Vec3.x heq
  simp only [segFinalPos, segBasePos, segSwayPos, glm.mix, Vec3.add, Vec3.muls, hs] at hx
  norm_num at hx
  linarith

/-- C10 amended: `finalPos = mix(basePos, swayPos, -0.8)` has x-coordinate
`-0.08 * sin(globalTime + phase)` and the y and z of both anchors; when
`sin(globalTime + phase) != 0` it lies on the line through the anchors on the
far side of `basePos` (factor -0.8 < 0), it is not between the two anchors and
it is not beyond `swayPos`. -/
theorem segFinalPos_beyondBase (M : FloatMath α) (globalTime : α) (seg : SeaweedSegment α) :
    segFinalPos M globalTime seg
      = ⟨-0.08 * M.sin (globalTime + seg.phase), seg.scale.y / 2, 0⟩ ∧
    (M.sin (globalTime + seg.phase) ≠ 0 →
      beyondBase (segBasePos seg) (segSwayPos M globalTime seg) (segFinalPos M globalTime seg) ∧
      ¬ betweenAnchors (segBasePos seg) (segSwayPos M globalTime seg) (segFinalPos M globalTime seg) ∧
      ¬ beyondSway (segBasePos seg) (segSwayPos M globalTime seg) (segFinalPos M globalTime seg)) := by
  have key : ∀ s : α, M.sin (globalTime + seg.phase) ≠ 0 →
      segFinalPos M globalTime seg = glm.mix (segBasePos seg) (segSwayPos M globalTime seg) s →
      s = -0.8 := by
    intro s hne heq
    have hx := congrArg Vec3.x heq
    simp only [segFinalPos, segBasePos, segSwayPos, glm.mix, Vec3.add, Vec3.muls] at hx
    have h2 : (0.1 * M.sin (globalTime + seg.phase)) * (s - (-0.8)) = 0 := by linarith
    rcases mul_eq_zero.mp h2 with h3 | h3
    · exfalso; apply hne
      have : (0.1 : α) ≠ 0 := by norm_num
      exact (mul_eq_zero.mp h3).resolve_left this
    · linarith
  refine ⟨?_, fun hne => ⟨⟨-0.8, by norm_num, rfl⟩, ?_, ?_⟩⟩
  · simp only [segFinalPos, segBasePos, segSwayPos, glm.mix, Vec3.add, Vec3.muls]
    ext
    · show 0 * (1 - (-0.8)) + 0.1 * M.sin (globalTime + seg.phase) * (-0.8) = _
      ring
    · show seg.scale.y / 2 * (1 - (-0.8)) + seg.scale.y / 2 * (-0.8) = _
      ring
    · show (0 : α) * (1 - (-0.8)) + 0 * (-0.8) = 0
      ring
  · rintro ⟨s, h0, _, heq⟩
    have := key s hne heq
    rw [this] at h0
    norm_num at h0
  · rintro ⟨s, h1, heq⟩
    have := key s hne heq
    rw [this] at h1
    norm_num at h1

/-- Witness of C10 amended: the root segment at globalTime = pi / 2. -/
theorem segFinalPos_beyondBase_witness :
    realMath.sin (Real.pi / 2 + (rootSegmentExample : SeaweedSegment ℝ).phase) ≠ 0 ∧
    beyondBase (segBasePos (rootSegmentExample : SeaweedSegment ℝ))
        (segSwayPos realMath (Real.pi / 2) rootSegmentExample)
        (segFinalPos realMath (Real.pi / 2) rootSegmentExample) :=
  have hs : realMath.sin (Real.pi / 2 + (rootSegmentExample : SeaweedSegment ℝ).phase) ≠ 0 := by
    simp [realMath, rootSegmentExample]
  ⟨hs, ((segFinalPos_beyondBase realMath (Real.pi / 2) rootSegmentExample).2 hs).1⟩

/-! ### Seaweed chains -/

omit [LinearOrderedField α] in
theorem heapWrite_mid (a b : List (SeaweedSegment α)) (x : SeaweedSegment α)
    (f : SeaweedSegment α → SeaweedSegment α) :
    heapWrite (a ++ x :: b) a.length f = a ++ f x :: b := by
  have h : (a ++ x :: b)[a.length]? = some x := by
    rw [List.getElem?_append_right (le_refl _)]
    simp
  unfold heapWrite
  rw [h]
  simp

omit [LinearOrderedField α] in
theorem heapWrite_last (a : List (SeaweedSegment α)) (x : SeaweedSegment α)
    (f : SeaweedSegment α → SeaweedSegment α) :
    heapWrite (a ++ [x]) a.length f = a ++ [f x] := heapWrite_mid a [] x f

theorem buildSegment_eq (st : PlantBuild α) (i : Nat) :
    buildSegment st i =
      if i = 0 then
        ⟨st.heap ++ [plantSegment i none], { st.sw with rootSegment := some st.heap.length },
          some st.heap.length⟩
      else
        match st.prev with
        | some prev =>
          ⟨heapWrite (st.heap ++ [plantSegment i none]) prev
              (fun s => { s with next := some st.heap.length }),
            st.sw, some st.heap.length⟩
        | none => ⟨st.heap ++ [plantSegment i none], st.sw, some st.heap.length⟩ := by
  simp only [buildSegment, newSeaweedSegment, heapWrite_last]
  rfl

theorem buildSegment_zero (h0 : List (SeaweedSegment α)) (sw : Seaweed α) (prev : Option Nat) :
    buildSegment ⟨h0, sw, prev⟩ 0
      = ⟨h0 ++ [plantSegment 0 none], { sw with rootSegment := some h0.length }, some h0.length⟩ := by
  rw [buildSegment_eq]; rfl

theorem buildSegment_succ (h : List (SeaweedSegment α)) (last : SeaweedSegment α) (sw : Seaweed α)
    (i n : Nat) (hn : h.length = n) :
    buildSegment ⟨h ++ [last], sw, some n⟩ (i + 1)
      = ⟨h ++ [{ last with next := some (n + 1) }] ++ [plantSegment (i + 1) none], sw, some (n + 1)⟩ := by
  subst hn
  have hlen : (h ++ [last]).length = h.length + 1 := by simp
  rw [buildSegment_eq, if_neg (Nat.succ_ne_zero i)]
  simp only [hlen]
  have := heapWrite_mid h [plantSegment (i+1) (none : Option Nat)] last
    (fun s => { s with next := some (h.length + 1) })
  simp only [List.append_assoc, List.singleton_append] at this ⊢
  rw [this]

theorem buildSeaweed_eq (M : FloatMath α) (RAND_MAX : Nat) (w : World α) (pos : Vec3 α) (r : Nat) :
    buildSeaweed M RAND_MAX w pos r =
      { w with heap := w.heap ++ plantSegments w.heap.length,
               seaweeds := w.seaweeds ++ [⟨pos, some w.heap.length, (r : α) / (RAND_MAX : α) * 3 * M.pi⟩] } := by
  have hr : List.range 7 = [0, 0 + 1, 1 + 1, 2 + 1, 3 + 1, 4 + 1, 5 + 1] := by decide
  simp only [buildSeaweed, hr, List.foldl_cons, List.foldl_nil]
  rw [buildSegment_zero, buildSegment_succ _ _ _ _ _ rfl,
    buildSegment_succ _ _ _ _ _ (by simp), buildSegment_succ _ _ _ _ _ (by simp),
    buildSegment_succ _ _ _ _ _ (by simp), buildSegment_succ _ _ _ _ _ (by simp),
    buildSegment_succ _ _ _ _ _ (by simp)]
  simp [plantSegments, plantSegment, Nat.add_assoc]

theorem initializeAquarium_seaweeds (M : FloatMath α) (RAND_MAX : Nat) (rand : Nat → Nat) (w : World α) :
    (initializeAquarium M RAND_MAX rand w).heap
      = w.heap ++ plantSegments w.heap.length ++ plantSegments (w.heap.length + 7)
          ++ plantSegments (w.heap.length + 14) ∧
    (initializeAquarium M RAND_MAX rand w).seaweeds
      = w.seaweeds ++
        [⟨⟨7, 0, 0⟩, some w.heap.length, (rand 12 : α) / (RAND_MAX : α) * 3 * M.pi⟩,
         ⟨⟨-7, 0, -10⟩, some (w.heap.length + 7), (rand 13 : α) / (RAND_MAX : α) * 3 * M.pi⟩,
         ⟨⟨-7, 0, 5⟩, some (w.heap.length + 14), (rand 14 : α) / (RAND_MAX : α) * 3 * M.pi⟩] := by
  have hz : (List.range 3).zip [(⟨7, 0, 0⟩ : Vec3 α), ⟨-7, 0, -10⟩, ⟨-7, 0, 5⟩]
      = [(0, ⟨7, 0, 0⟩), (1, ⟨-7, 0, -10⟩), (2, ⟨-7, 0, 5⟩)] := rfl
  simp only [initializeAquarium, List.length_cons, List.length_nil, hz, List.foldl_cons,
    List.foldl_nil, buildSeaweed_eq]
  simp [plantSegments, Nat.add_assoc]

omit [LinearOrderedField α] in
theorem chainFrom_none (heap : List (SeaweedSegment α)) (fuel : Nat) :
    chainFrom heap fuel none = some [] := by
  cases fuel <;> rfl

omit [LinearOrderedField α] in
theorem chainFrom_step (heap : List (SeaweedSegment α)) (fuel p : Nat) (seg : SeaweedSegment α)
    (next : Option Nat) (h : heap[p]? = some seg) (hnext : seg.next = next) :
    chainFrom heap (fuel + 1) (some p) = (chainFrom heap fuel next).map (fun segs => seg :: segs) := by
  subst hnext
  simp only [chainFrom, h]

theorem chainFrom_plant (pre post : List (SeaweedSegment α)) (n fuel : Nat) (hn : pre.length = n)
    (hfuel : 7 ≤ fuel) :
    chainFrom (pre ++ plantSegments n ++ post) fuel (some n) = some (plantSegments n) := by
  obtain ⟨k, rfl⟩ : ∃ k, fuel = k + 7 := ⟨fuel - 7, by omega⟩
  have hget : ∀ j, j < 7 →
      (pre ++ plantSegments n ++ post)[n + j]? = (plantSegments n : List (SeaweedSegment α))[j]? := by
    intro j hj
    subst hn
    rw [List.append_assoc, List.getElem?_append_right (by omega)]
    rw [List.getElem?_append_left (by simp [plantSegments]; omega)]
    simp
  have h0 := hget 0 (by omega)
  have h1 := hget 1 (by omega)
  have h2 := hget 2 (by omega)
  have h3 := hget 3 (by omega)
  have h4 := hget 4 (by omega)
  have h5 := hget 5 (by omega)
  have h6 := hget 6 (by omega)
  generalize pre ++ plantSegments n ++ post = heap at h0 h1 h2 h3 h4 h5 h6 ⊢
  simp only [plantSegments, List.getElem?_cons_zero, List.getElem?_cons_succ, Nat.add_zero]
    at h0 h1 h2 h3 h4 h5 h6
  rw [chainFrom_step heap (k + 6) n _ (some (n + 1)) h0 rfl,
    chainFrom_step heap (k + 5) (n + 1) _ (some (n + 2)) h1 rfl,
    chainFrom_step heap (k + 4) (n + 2) _ (some (n + 3)) h2 rfl,
    chainFrom_step heap (k + 3) (n + 3) _ (some (n + 4)) h3 rfl,
    chainFrom_step heap (k + 2) (n + 4) _ (some (n + 5)) h4 rfl,
    chainFrom_step heap (k + 1) (n + 5) _ (some (n + 6)) h5 rfl,
    chainFrom_step heap k (n + 6) _ none h6 rfl, chainFrom_none]
  rfl

theorem drawSegments_eq_chainDraws (M : FloatMath α) (heap : List (SeaweedSegment α))
    (globalTime : α) (view projection : Mat4 α) (seaweed : Seaweed α) (fuel : Nat)
    (seg : Option Nat) (currentModel : Mat4 α) :
    drawSegments M heap globalTime view projection seaweed fuel seg currentModel
      = (chainFrom heap fuel seg).map
          (fun segs => chainDraws M globalTime view projection seaweed segs currentModel) := by
  induction fuel generalizing seg currentModel with
  | zero => cases seg <;> rfl
  | succ fuel ih =>
    cases seg with
    | none => rfl
    | some p =>
      simp only [drawSegments, chainFrom]
      cases hp : heap[p]? with
      | none => rfl
      | some s =>
        simp only [ih]
        cases chainFrom heap fuel s.next <;> rfl

theorem chainDraws_length (M : FloatMath α) (globalTime : α) (view projection : Mat4 α)
    (seaweed : Seaweed α) (segs : List (SeaweedSegment α)) (currentModel : Mat4 α) :
    (chainDraws M globalTime view projection seaweed segs currentModel).length = segs.length ∧
    (chainDraws M globalTime view projection seaweed segs currentModel).map (fun d => d.color)
      = segs.map (fun s => s.color) := by
  induction segs generalizing currentModel with
  | nil => exact ⟨rfl, rfl⟩
  | cons seg segs ih =>
    obtain ⟨h1, h2⟩ := ih (segNextModel M globalTime seaweed seg currentModel)
    constructor
    · simp only [chainDraws, List.length_cons, h1]
    · simp only [chainDraws, List.map_cons, h2]
      rfl

theorem plantSegments_length (n : Nat) : (plantSegments n : List (SeaweedSegment α)).length = 7 := rfl

theorem drawSeaweed_plant (M : FloatMath α) (pre post : List (SeaweedSegment α)) (n fuel : Nat)
    (hn : pre.length = n) (hfuel : 7 ≤ fuel) (globalTime : α) (view projection : Mat4 α)
    (sw : Seaweed α) (hroot : sw.rootSegment = some n) :
    ∃ chain draws,
      chainFrom (pre ++ plantSegments n ++ post) fuel sw.rootSegment = some chain ∧
      chain.length = 7 ∧
      drawSeaweed M (pre ++ plantSegments n ++ post) globalTime view projection fuel sw = some draws ∧
      draws = chainDraws M globalTime view projection sw chain
        (glm.translate glm.identity sw.basePosition) ∧
      draws.length = 7 ∧ draws.map (fun d => d.color) = chain.map (fun s => s.color) := by
  have hc := chainFrom_plant pre post n fuel hn hfuel
  have hl := chainDraws_length M globalTime view projection sw (plantSegments n)
    (glm.translate glm.identity sw.basePosition)
  refine ⟨plantSegments n, _, by rw [hroot]; exact hc, rfl, ?_, rfl, hl.1, hl.2⟩
  unfold drawSeaweed
  rw [drawSegments_eq_chainDraws, hroot, hc]
  rfl

/-- C7: `initializeAquarium` appends three plants to `seaweeds`, and each of
them owns a chain of exactly 7 segments (following `next` from `rootSegment`
reaches null after 7 segments); for every globalTime the render traversal of
such a plant, given fuel for at least 7 iterations, terminates and issues
exactly 7 draw calls, the draw calls of the 7 segments in root-to-tip order
(the i-th draw call carries the color of the i-th segment). -/
theorem seaweed_renders_seven_segments (M : FloatMath α) (RAND_MAX : Nat) (rand : Nat → Nat)
    (w : World α) (globalTime : α) (view projection : Mat4 α) (fuel : Nat) (hfuel : 7 ≤ fuel) :
    ∃ built : List (Seaweed α),
      (initializeAquarium M RAND_MAX rand w).seaweeds = w.seaweeds ++ built ∧ built.length = 3 ∧
      ∀ sw ∈ built, ∃ chain draws,
        chainFrom (initializeAquarium M RAND_MAX rand w).heap fuel sw.rootSegment = some chain ∧
        chain.length = 7 ∧
        drawSeaweed M (initializeAquarium M RAND_MAX rand w).heap globalTime view projection fuel sw
          = some draws ∧
        draws = chainDraws M globalTime view projection sw chain
          (glm.translate glm.identity sw.basePosition) ∧
        draws.length = 7 ∧ draws.map (fun d => d.color) = chain.map (fun s => s.color) := by
  obtain ⟨hheap, hsw⟩ := initializeAquarium_seaweeds M RAND_MAX rand w
  refine ⟨_, hsw, rfl, ?_⟩
  intro sw hmem
  rw [hheap]
  simp only [List.mem_cons, List.mem_singleton, List.not_mem_nil, or_false] at hmem
  rcases hmem with rfl | rfl | rfl
  · have := drawSeaweed_plant M w.heap
      (plantSegments (w.heap.length + 7) ++ plantSegments (w.heap.length + 14)) w.heap.length fuel
      rfl hfuel globalTime view projection
      ⟨⟨7, 0, 0⟩, some w.heap.length, (rand 12 : α) / (RAND_MAX : α) * 3 * M.pi⟩ rfl
    simpa only [List.append_assoc] using this
  · have := drawSeaweed_plant M (w.heap ++ plantSegments w.heap.length)
      (plantSegments (w.heap.length + 14)) (w.heap.length + 7) fuel
      (by simp [plantSegments_length]) hfuel globalTime view projection
      ⟨⟨-7, 0, -10⟩, some (w.heap.length + 7), (rand 13 : α) / (RAND_MAX : α) * 3 * M.pi⟩ rfl
    simpa only [List.append_assoc] using this
  · have := drawSeaweed_plant M
      (w.heap ++ plantSegments w.heap.length ++ plantSegments (w.heap.length + 7)) []
      (w.heap.length + 14) fuel
      (by simp [plantSegments_length, Nat.add_assoc]) hfuel globalTime view projection
      ⟨⟨-7, 0, 5⟩, some (w.heap.length + 14), (rand 14 : α) / (RAND_MAX : α) * 3 * M.pi⟩ rfl
    simpa only [List.append_assoc, List.append_nil] using this

/-- Witness of C7: the first plant of the aquarium built from the initial
globals, rendered with fuel 7 at time 0, gives 7 draw calls. -/
theorem seaweed_renders_seven_segments_witness :
    (7 ≤ 7) ∧ ∃ draws,
      drawSeaweed realMath (initializeAquarium realMath 32767 (fun _ => 0) initialWorld).heap 0
        glm.identity glm.identity 7 ⟨⟨7, 0, 0⟩, some 0, ((0 : ℕ) : ℝ) / ((32767 : ℕ) : ℝ) * 3 * realMath.pi⟩
        = some draws ∧ draws.length = 7 := by
  obtain ⟨built, hb, _, h⟩ := seaweed_renders_seven_segments realMath 32767 (fun _ => 0)
    initialWorld 0 glm.identity glm.identity 7 (le_refl 7)
  have hsw := (initializeAquarium_seaweeds realMath 32767 (fun _ => 0) initialWorld).2
  rw [hsw] at hb
  have hb' := List.append_cancel_left hb
  obtain ⟨chain, draws, _, _, hd, _, hl, _⟩ := h _ (by rw [← hb']; exact List.mem_cons_self _ _)
  exact ⟨le_refl 7, draws, hd, hl⟩

/-! ### The seaweed as a kinematic chain -/

theorem chainModels_getElem? (M : FloatMath α) (globalTime : α) (view projection : Mat4 α)
    (seaweed : Seaweed α) (chain : List (SeaweedSegment α)) (currentModel : Mat4 α) (i : Nat)
    (seg : SeaweedSegment α) (hi : chain[i]? = some seg) :
    (chainModels M globalTime seaweed chain currentModel)[i]?
      = some (segCurrentModel M globalTime seaweed seg
          (modelAfter M globalTime seaweed (chain.take i) currentModel)) ∧
    (chainDraws M globalTime view projection seaweed chain currentModel)[i]?
      = some (segDraw M globalTime view projection seaweed seg
          (modelAfter M globalTime seaweed (chain.take i) currentModel)) := by
  induction chain generalizing currentModel i with
  | nil => simp at hi
  | cons s rest ih =>
    cases i with
    | zero =>
      simp only [List.getElem?_cons_zero, Option.some.injEq] at hi
      subst hi
      simp [chainModels, chainDraws, modelAfter]
    | succ k =>
      simp only [List.getElem?_cons_succ] at hi
      have := ih (segNextModel M globalTime seaweed s currentModel) k hi
      simpa only [chainModels, chainDraws, List.getElem?_cons_succ, List.take_succ_cons, modelAfter,
        List.foldl_cons] using this

theorem rotate_zRotationAt (theta a : ℝ) (origin : Vec3 ℝ) :
    glm.rotate realMath (zRotationAt realMath theta origin) a ⟨0, 0, 1⟩
      = zRotationAt realMath (theta + a) origin := by
  simp only [glm.rotate, glm.normalize, glm.inversesqrt, glm.dot, zRotationAt, realMath,
    Vec3.muls, Vec4.muls, Vec4.add, Real.cos_add, Real.sin_add]
  have h1 : Real.sqrt ((0 : ℝ) * 0 + 0 * 0 + 1 * 1) = 1 := by norm_num
  rw [h1]
  ext <;> simp <;> ring

theorem translate_zRotationAt (M : FloatMath α) (theta h : α) (origin : Vec3 α) :
    glm.translate (zRotationAt M theta origin) ⟨0, h, 0⟩
      = zRotationAt M theta (origin.add (rotateAboutZ M theta ⟨0, h, 0⟩)) := by
  simp only [glm.translate, zRotationAt, rotateAboutZ, Vec3.add, Vec4.muls, Vec4.add]
  ext <;> simp <;> ring

theorem translate_identity (base : Vec3 ℝ) :
    glm.translate glm.identity base = zRotationAt realMath 0 base := by
  simp only [glm.translate, glm.identity, zRotationAt, realMath, Vec4.muls, Vec4.add]
  ext <;> simp

theorem swayAngleSum_succ (M : FloatMath α) (globalTime : α) (seaweed : Seaweed α)
    (chain : List (SeaweedSegment α)) (i : Nat) (seg : SeaweedSegment α) (hi : chain[i]? = some seg) :
    swayAngleSum M globalTime seaweed chain (i + 1)
      = swayAngleSum M globalTime seaweed chain i + swayAngle M globalTime seaweed seg := by
  simp [swayAngleSum, List.take_succ, hi]

theorem modelAfter_take (globalTime : ℝ) (seaweed : Seaweed ℝ) (chain : List (SeaweedSegment ℝ))
    (i : Nat) (hi : i ≤ chain.length) :
    modelAfter realMath globalTime seaweed (chain.take i)
        (glm.translate glm.identity seaweed.basePosition)
      = zRotationAt realMath (swayAngleSum realMath globalTime seaweed chain i)
          (chainOrigin realMath globalTime seaweed chain i) := by
  induction i with
  | zero =>
    simp only [List.take_zero, modelAfter, List.foldl_nil, swayAngleSum, List.map_nil,
      List.sum_nil, chainOrigin]
    exact translate_identity _
  | succ i ih =>
    have hlt : i < chain.length := hi
    have hget : chain[i]? = some chain[i] := List.getElem?_eq_getElem hlt
    have hs := swayAngleSum_succ realMath globalTime seaweed chain i chain[i] hget
    have ih' := ih (Nat.le_of_lt hlt)
    unfold modelAfter at ih' ⊢
    rw [List.take_succ, hget, Option.toList, List.foldl_append, ih']
    simp only [List.foldl_cons, List.foldl_nil, segNextModel, segCurrentModel]
    rw [rotate_zRotationAt, translate_zRotationAt, ← hs]
    simp only [chainOrigin, hget, Option.map, Option.getD]

/-- C9: the seaweed is a kinematic chain. For every plant whose chain (the
segments met following `next` from `rootSegment`) is `chain`, every time and
every index `i` of a segment of the chain, the matrix `currentModel` that
segment `i` is drawn with is `zRotationAt`: its rotation part is the rotation
about Z by the sum of the sway angles of segments 0..i and its origin is
`chainOrigin`, the base position carried through the ancestors' rotations and
their translations by (0, scale.y, 0); the i-th draw call of the render
traversal is the cube under that matrix, translated by `finalPos` and scaled
by the segment's scale. -/
theorem seaweed_kinematic_chain (heap : List (SeaweedSegment ℝ)) (globalTime : ℝ)
    (view projection : Mat4 ℝ) (fuel : Nat) (seaweed : Seaweed ℝ) (chain : List (SeaweedSegment ℝ))
    (hchain : chainFrom heap fuel seaweed.rootSegment = some chain)
    (i : Nat) (seg : SeaweedSegment ℝ) (hi : chain[i]? = some seg) :
    (chainModels realMath globalTime seaweed chain
        (glm.translate glm.identity seaweed.basePosition))[i]?
      = some (zRotationAt realMath (swayAngleSum realMath globalTime seaweed chain (i + 1))
          (chainOrigin realMath globalTime seaweed chain i)) ∧
    ∃ draws, drawSeaweed realMath heap globalTime view projection fuel seaweed = some draws ∧
      draws[i]? = some ⟨"cube",
        glm.scale (glm.translate
          (zRotationAt realMath (swayAngleSum realMath globalTime seaweed chain (i + 1))
            (chainOrigin realMath globalTime seaweed chain i))
          (segFinalPos realMath globalTime seg)) seg.scale,
        view, projection, seg.color⟩ := by
  have hlt : i < chain.length := by
    rcases Nat.lt_or_ge i chain.length with h | h
    · exact h
    · rw [List.getElem?_eq_none h] at hi
      exact absurd hi (by simp)
  obtain ⟨hm, hd⟩ := chainModels_getElem? realMath globalTime view projection seaweed chain
    (glm.translate glm.identity seaweed.basePosition) i seg hi
  have hafter := modelAfter_take globalTime seaweed chain i (Nat.le_of_lt hlt)
  have hs := swayAngleSum_succ realMath globalTime seaweed chain i seg hi
  have hcur : segCurrentModel realMath globalTime seaweed seg
      (modelAfter realMath globalTime seaweed (chain.take i)
        (glm.translate glm.identity seaweed.basePosition))
      = zRotationAt realMath (swayAngleSum realMath globalTime seaweed chain (i + 1))
          (chainOrigin realMath globalTime seaweed chain i) := by
    rw [hafter, hs]
    exact rotate_zRotationAt _ _ _
  refine ⟨by rw [hm, hcur], chainDraws realMath globalTime view projection seaweed chain
    (glm.translate glm.identity seaweed.basePosition), ?_, ?_⟩
  · unfold drawSeaweed
    rw [drawSegments_eq_chainDraws, hchain]
    rfl
  · rw [hd]
    simp only [segDraw, hcur]

/-- Witness of C9: the second segment (index 1) of the first plant of the
aquarium built from the initial globals, at time 0. -/
theorem seaweed_kinematic_chain_witness :
    (chainModels realMath 0 ⟨⟨7, 0, 0⟩, some 0, 0⟩ (plantSegments 0)
        (glm.translate glm.identity (⟨7, 0, 0⟩ : Vec3 ℝ)))[1]?
      = some (zRotationAt realMath
          (swayAngleSum realMath 0 ⟨⟨7, 0, 0⟩, some 0, 0⟩ (plantSegments 0) 2)
          (chainOrigin realMath 0 ⟨⟨7, 0, 0⟩, some 0, 0⟩ (plantSegments 0) 1)) :=
  (seaweed_kinematic_chain ([] ++ plantSegments 0 ++ []) 0 glm.identity glm.identity 7
    ⟨⟨7, 0, 0⟩, some 0, 0⟩ (plantSegments 0)
    (chainFrom_plant [] [] 0 7 rfl (le_refl 7)) 1 (plantSegment 1 (some 2)) rfl).1

/-! ### Guards of processInput -/

theorem processInputChecked_eq (M : FloatMath α) (window : Window) (deltaTime : α)
    (playerFish : PlayerFish α) :
    processInputChecked M window deltaTime playerFish
      = some (processInput M window deltaTime playerFish) := by
  have hdot : glm.length M (⟨(faceIntent window : Vec3 α).x, 0, (faceIntent window : Vec3 α).z⟩ : Vec3 α)
      = glm.length2 M (faceIntent window : Vec3 α).x (faceIntent window : Vec3 α).z := by
    unfold glm.length glm.length2 glm.dot
    congr 1
    ring
  unfold processInputChecked processInput processInputMove
  by_cases hm : glm.length M (moveIntent window : Vec3 α) > 0
  · have hm0 : glm.length M (moveIntent window : Vec3 α) ≠ 0 := ne_of_gt hm
    by_cases hf : glm.length2 M (faceIntent window : Vec3 α).x (faceIntent window : Vec3 α).z > 0
    · have hf0 : glm.length M (⟨(faceIntent window : Vec3 α).x, 0, (faceIntent window : Vec3 α).z⟩ : Vec3 α) ≠ 0 := by
        rw [hdot]; exact ne_of_gt hf
      simp [hm, hf, Vec3.divsChecked, glm.normalizeChecked, hm0, hf0, moveStep]
    · simp [hm, hf, Vec3.divsChecked, hm0, moveStep]
  · by_cases hf : glm.length2 M (faceIntent window : Vec3 α).x (faceIntent window : Vec3 α).z > 0
    · have hf0 : glm.length M (⟨(faceIntent window : Vec3 α).x, 0, (faceIntent window : Vec3 α).z⟩ : Vec3 α) ≠ 0 := by
        rw [hdot]; exact ne_of_gt hf
      simp [hm, hf, glm.normalizeChecked, hf0]
    · simp [hm, hf]

theorem glm_clamp_inside (x lo hi : α) (h1 : lo ≤ x) (h2 : x ≤ hi) : glm.clamp x lo hi = x := by
  unfold glm.clamp glm.min glm.max
  split_ifs <;> linarith

theorem clampToBounds_inside (playerFish : PlayerFish α) (h : insideBounds playerFish.position) :
    (clampToBounds playerFish).position = playerFish.position := by
  obtain ⟨⟨hx1, hx2⟩, ⟨hy1, hy2⟩, ⟨hz1, hz2⟩⟩ := h
  have hmax : glm.max playerFish.position.y 1.5 = playerFish.position.y := by
    unfold glm.max
    split_ifs <;> linarith
  have hX : (-AQUARIUM_BOUND_X + 20 : α) = -15 := by norm_num [AQUARIUM_BOUND_X]
  have hX' : (AQUARIUM_BOUND_X - 20 : α) = 15 := by norm_num [AQUARIUM_BOUND_X]
  have hZ : (AQUARIUM_BOUND_Z : α) = 20 := rfl
  simp only [clampToBounds, hmax, hX, hX', hZ]
  rw [glm_clamp_inside _ _ _ hx1 hx2, glm_clamp_inside _ _ _ hy1 hy2, glm_clamp_inside _ _ _ hz1 hz2]

theorem clampToBounds_position_congr (p q : PlayerFish α) (h : p.position = q.position) :
    (clampToBounds p).position = (clampToBounds q).position := by
  simp only [clampToBounds, h]

theorem processInputMove_idle_position (M : FloatMath α) (window : Window) (deltaTime : α)
    (playerFish : PlayerFish α) (hsqrt : M.sqrt 0 = 0)
    (h : moveIntent window = (Vec3.splat 0 : Vec3 α)) :
    (processInputMove M window deltaTime playerFish).position = playerFish.position := by
  have hlen : glm.length M (moveIntent window : Vec3 α) = 0 := by
    rw [h]
    simp [glm.length, glm.dot, Vec3.splat, hsqrt]
  simp only [processInputMove, hlen, gt_iff_lt, lt_self_iff_false, if_false]
  split_ifs <;> rfl

theorem processInputMove_idle_angle (M : FloatMath α) (window : Window) (deltaTime : α)
    (playerFish : PlayerFish α) (hsqrt : M.sqrt 0 = 0)
    (h : (faceIntent window : Vec3 α).x = 0 ∧ (faceIntent window : Vec3 α).z = 0) :
    (processInputMove M window deltaTime playerFish).angle = playerFish.angle := by
  have hlen : glm.length2 M (faceIntent window : Vec3 α).x (faceIntent window : Vec3 α).z = 0 := by
    rw [h.1, h.2]
    simp [glm.length2, hsqrt]
  simp only [processInputMove, hlen, gt_iff_lt, lt_self_iff_false, if_false]
  split_ifs <;> rfl

/-- C11: `processInput` never normalizes a zero-length vector. For every key
state, the run with faults (`processInputChecked`, where a division by a zero
`moveLength` and the normalization of a zero-length facing vector fail) never
fails and gives the result of `processInput`; when the movement intent is
zero the position is changed by nothing but the bounds clamp, and is unchanged
if it was inside the box; when the horizontal facing intent is zero the angle
is unchanged; in both cases the skipped operation would have been a fault.
(For a square root with sqrt 0 = 0.) -/
theorem processInput_never_normalizes_zero (M : FloatMath α) (window : Window) (deltaTime : α)
    (playerFish : PlayerFish α) (hsqrt : M.sqrt 0 = 0) :
    processInputChecked M window deltaTime playerFish
      = some (processInput M window deltaTime playerFish) ∧
    (moveIntent window = (Vec3.splat 0 : Vec3 α) →
      (moveIntent window : Vec3 α).divsChecked (glm.length M (moveIntent window : Vec3 α)) = none ∧
      (processInput M window deltaTime playerFish).position = (clampToBounds playerFish).position ∧
      (insideBounds playerFish.position →
        (processInput M window deltaTime playerFish).position = playerFish.position)) ∧
    ((faceIntent window : Vec3 α).x = 0 ∧ (faceIntent window : Vec3 α).z = 0 →
      glm.normalizeChecked M ⟨(faceIntent window : Vec3 α).x, 0, (faceIntent window : Vec3 α).z⟩ = none ∧
      (processInput M window deltaTime playerFish).angle = playerFish.angle) := by
  refine ⟨processInputChecked_eq M window deltaTime playerFish, ?_, ?_⟩
  · intro h
    have hp := processInputMove_idle_position M window deltaTime playerFish hsqrt h
    have hc : (processInput M window deltaTime playerFish).position
        = (clampToBounds playerFish).position :=
      clampToBounds_position_congr _ _ hp
    refine ⟨?_, hc, fun hin => hc.trans (clampToBounds_inside playerFish hin)⟩
    rw [h]
    simp [Vec3.divsChecked, glm.length, glm.dot, Vec3.splat, hsqrt]
  · intro h
    refine ⟨?_, processInputMove_idle_angle M window deltaTime playerFish hsqrt h⟩
    rw [h.1, h.2]
    simp [glm.normalizeChecked, glm.length, glm.dot, hsqrt]

/-- Witness of C11: with W and S held the movement and facing intents cancel;
the initial player, at (0, 5, 0), keeps its position and its angle. -/
theorem processInput_never_normalizes_zero_witness :
    realMath.sqrt 0 = 0 ∧
    moveIntent (windowHoldingKeys [GLFW_KEY_W, GLFW_KEY_S]) = (Vec3.splat 0 : Vec3 ℝ) ∧
    (processInput realMath (windowHoldingKeys [GLFW_KEY_W, GLFW_KEY_S]) 0.1
      (initialWorld : World ℝ).playerFish).position = (initialWorld : World ℝ).playerFish.position ∧
    (processInput realMath (windowHoldingKeys [GLFW_KEY_W, GLFW_KEY_S]) 0.1
      (initialWorld : World ℝ).playerFish).angle = (initialWorld : World ℝ).playerFish.angle :=
  have hs : realMath.sqrt 0 = 0 := Real.sqrt_zero
  have hm : moveIntent (windowHoldingKeys [GLFW_KEY_W, GLFW_KEY_S]) = (Vec3.splat 0 : Vec3 ℝ) := by
    norm_num [moveIntent, windowHoldingKeys, Vec3.splat, GLFW_KEY_W, GLFW_KEY_D, GLFW_KEY_S,
      GLFW_KEY_A, GLFW_KEY_SPACE, GLFW_KEY_LEFT_SHIFT, GLFW_PRESS, GLFW_RELEASE]
  have hf : (faceIntent (windowHoldingKeys [GLFW_KEY_W, GLFW_KEY_S]) : Vec3 ℝ).x = 0 ∧
      (faceIntent (windowHoldingKeys [GLFW_KEY_W, GLFW_KEY_S]) : Vec3 ℝ).z = 0 := by
    norm_num [faceIntent, windowHoldingKeys, Vec3.splat, GLFW_KEY_W, GLFW_KEY_D, GLFW_KEY_S,
      GLFW_KEY_A, GLFW_PRESS, GLFW_RELEASE]
  have hin : insideBounds (initialWorld : World ℝ).playerFish.position := by
    norm_num [insideBounds, initialWorld]
  have h := processInput_never_normalizes_zero realMath (windowHoldingKeys [GLFW_KEY_W, GLFW_KEY_S])
    0.1 (initialWorld : World ℝ).playerFish hs
  ⟨hs, hm, (h.2.1 hm).2.2 hin, (h.2.2 hf).2⟩

/-! ### Facing of the player -/

theorem faceIntent_eq_moveIntent (window : Window) :
    (faceIntent window : Vec3 α).x = (moveIntent window : Vec3 α).x ∧
    (faceIntent window : Vec3 α).z = -(moveIntent window : Vec3 α).z := by
  by_cases hW : window.keyState GLFW_KEY_W = GLFW_PRESS <;>
  by_cases hS : window.keyState GLFW_KEY_S = GLFW_PRESS <;>
  by_cases hA : window.keyState GLFW_KEY_A = GLFW_PRESS <;>
  by_cases hD : window.keyState GLFW_KEY_D = GLFW_PRESS <;>
  by_cases hU : window.keyState GLFW_KEY_SPACE = GLFW_PRESS <;>
  by_cases hL : window.keyState GLFW_KEY_LEFT_SHIFT = GLFW_PRESS <;>
  simp [faceIntent, moveIntent, Vec3.splat, hW, hS, hA, hD, hU, hL]

theorem fishModel_nose (position : Vec3 ℝ) (angle : ℝ) :
    (fishModel realMath position angle).mulVec ⟨1, 0, 0, 0⟩
      = ⟨Real.cos angle, 0, -Real.sin angle, 0⟩ := by
  simp only [Mat4.mulVec, fishModel, glm.rotate, glm.translate, glm.identity, glm.normalize,
    glm.inversesqrt, glm.dot, realMath, Vec3.muls, Vec4.muls, Vec4.add]
  have h1 : Real.sqrt ((0 : ℝ) * 0 + 1 * 1 + 0 * 0) = 1 := by norm_num
  rw [h1]
  ext <;> simp

theorem arg_of_normalized (a b : ℝ) (h : a ≠ 0 ∨ b ≠ 0) :
    Real.cos (Complex.arg ⟨a * (1 / Real.sqrt (a * a + 0 * 0 + b * b)),
        b * (1 / Real.sqrt (a * a + 0 * 0 + b * b))⟩)
      = a * (1 / Real.sqrt (a * a + 0 * 0 + b * b)) ∧
    Real.sin (Complex.arg ⟨a * (1 / Real.sqrt (a * a + 0 * 0 + b * b)),
        b * (1 / Real.sqrt (a * a + 0 * 0 + b * b))⟩)
      = b * (1 / Real.sqrt (a * a + 0 * 0 + b * b)) := by
  have hD : 0 < a * a + 0 * 0 + b * b := by
    rcases h with h | h
    · have := mul_self_pos.mpr h
      nlinarith [mul_self_nonneg b]
    · have := mul_self_pos.mpr h
      nlinarith [mul_self_nonneg a]
  have hL : 0 < Real.sqrt (a * a + 0 * 0 + b * b) := Real.sqrt_pos.mpr hD
  have hLL : Real.sqrt (a * a + 0 * 0 + b * b) * Real.sqrt (a * a + 0 * 0 + b * b)
      = a * a + 0 * 0 + b * b := Real.mul_self_sqrt hD.le
  generalize Real.sqrt (a * a + 0 * 0 + b * b) = L at hL hLL
  have hne : L ≠ 0 := ne_of_gt hL
  have habs : Complex.abs ⟨a * (1 / L), b * (1 / L)⟩ = 1 := by
    rw [Complex.abs_apply, Complex.normSq_mk]
    have : a * (1 / L) * (a * (1 / L)) + b * (1 / L) * (b * (1 / L)) = 1 := by
      field_simp
      nlinarith [hLL]
    rw [this, Real.sqrt_one]
  have hz : (⟨a * (1 / L), b * (1 / L)⟩ : ℂ) ≠ 0 := by
    intro h0
    rw [h0] at habs
    simp at habs
  constructor
  · rw [Complex.cos_arg hz, habs, div_one]
  · rw [Complex.sin_arg, habs, div_one]

theorem arg_normalized_eq (a b : ℝ) (h : a ≠ 0 ∨ b ≠ 0) :
    Complex.arg ⟨a * (1 / Real.sqrt (a * a + 0 * 0 + b * b)),
        b * (1 / Real.sqrt (a * a + 0 * 0 + b * b))⟩ = Complex.arg ⟨a, b⟩ := by
  have hD : 0 < a * a + 0 * 0 + b * b := by
    rcases h with h | h
    · have := mul_self_pos.mpr h
      nlinarith [mul_self_nonneg b]
    · have := mul_self_pos.mpr h
      nlinarith [mul_self_nonneg a]
  have hL : 0 < 1 / Real.sqrt (a * a + 0 * 0 + b * b) := one_div_pos.mpr (Real.sqrt_pos.mpr hD)
  generalize 1 / Real.sqrt (a * a + 0 * 0 + b * b) = r at hL
  have : (⟨a * r, b * r⟩ : ℂ) = (r : ℂ) * ⟨a, b⟩ := by
    apply Complex.ext <;> simp [mul_comm]
  rw [this, Complex.arg_real_mul _ hL]

theorem processInput_angle (window : Window) (deltaTime : ℝ) (playerFish : PlayerFish ℝ)
    (hf : glm.length2 realMath (faceIntent window : Vec3 ℝ).x (faceIntent window : Vec3 ℝ).z > 0) :
    (processInput realMath window deltaTime playerFish).angle
      = realMath.atan2
          (glm.normalize realMath ⟨(faceIntent window : Vec3 ℝ).x, 0, (faceIntent window : Vec3 ℝ).z⟩).z
          (glm.normalize realMath ⟨(faceIntent window : Vec3 ℝ).x, 0, (faceIntent window : Vec3 ℝ).z⟩).x := by
  simp only [processInput, clampToBounds, processInputMove]
  rw [if_pos hf]

/-- C12: the player fish faces the way it swims. For every key state with a
non-zero horizontal movement intent, `faceDir.x = moveDir.x` and
`faceDir.z = -moveDir.z`, `processInput` sets the angle to
`atan2(horizFaceDir.z, horizFaceDir.x)`, which is `atan2(faceDir.z, faceDir.x)`,
the matrix `fishModel` of
`drawPlayerFish` (rotation about +Y by that angle) maps the local nose axis
+X to (cos angle, 0, -sin angle), and that vector is the normalized horizontal
(X, Z) component of the movement intent. -/
theorem player_faces_swim_direction (window : Window) (deltaTime : ℝ) (playerFish : PlayerFish ℝ)
    (position : Vec3 ℝ)
    (h : (moveIntent window : Vec3 ℝ).x ≠ 0 ∨ (moveIntent window : Vec3 ℝ).z ≠ 0) :
    ((faceIntent window : Vec3 ℝ).x = (moveIntent window : Vec3 ℝ).x ∧
      (faceIntent window : Vec3 ℝ).z = -(moveIntent window : Vec3 ℝ).z) ∧
    (processInput realMath window deltaTime playerFish).angle
      = realMath.atan2
          (glm.normalize realMath ⟨(faceIntent window : Vec3 ℝ).x, 0, (faceIntent window : Vec3 ℝ).z⟩).z
          (glm.normalize realMath ⟨(faceIntent window : Vec3 ℝ).x, 0, (faceIntent window : Vec3 ℝ).z⟩).x ∧
    (processInput realMath window deltaTime playerFish).angle
      = realMath.atan2 (faceIntent window : Vec3 ℝ).z (faceIntent window : Vec3 ℝ).x ∧
    (fishModel realMath position (processInput realMath window deltaTime playerFish).angle).mulVec
        ⟨1, 0, 0, 0⟩
      = ⟨Real.cos (processInput realMath window deltaTime playerFish).angle, 0,
          -Real.sin (processInput realMath window deltaTime playerFish).angle, 0⟩ ∧
    (⟨Real.cos (processInput realMath window deltaTime playerFish).angle, 0,
        -Real.sin (processInput realMath window deltaTime playerFish).angle⟩ : Vec3 ℝ)
      = glm.normalize realMath ⟨(moveIntent window : Vec3 ℝ).x, 0, (moveIntent window : Vec3 ℝ).z⟩ := by
  obtain ⟨hfx, hfz⟩ := faceIntent_eq_moveIntent (α := ℝ) window
  have h' : (faceIntent window : Vec3 ℝ).x ≠ 0 ∨ (faceIntent window : Vec3 ℝ).z ≠ 0 := by
    rw [hfx, hfz]
    rcases h with h | h
    · exact Or.inl h
    · exact Or.inr (neg_ne_zero.mpr h)
  have hD : 0 < (faceIntent window : Vec3 ℝ).x * (faceIntent window : Vec3 ℝ).x
      + (faceIntent window : Vec3 ℝ).z * (faceIntent window : Vec3 ℝ).z := by
    rcases h' with h1 | h1
    · have := mul_self_pos.mpr h1
      nlinarith [mul_self_nonneg (faceIntent window : Vec3 ℝ).z]
    · have := mul_self_pos.mpr h1
      nlinarith [mul_self_nonneg (faceIntent window : Vec3 ℝ).x]
  have hf : glm.length2 realMath (faceIntent window : Vec3 ℝ).x (faceIntent window : Vec3 ℝ).z > 0 :=
    Real.sqrt_pos.mpr hD
  have hang := processInput_angle window deltaTime playerFish hf
  obtain ⟨hcos, hsin⟩ := arg_of_normalized _ _ h'
  have hraw : (processInput realMath window deltaTime playerFish).angle
      = realMath.atan2 (faceIntent window : Vec3 ℝ).z (faceIntent window : Vec3 ℝ).x := by
    rw [hang]
    exact arg_normalized_eq _ _ h'
  refine ⟨⟨hfx, hfz⟩, hang, hraw, fishModel_nose position _, ?_⟩
  rw [hang]
  simp only [realMath, glm.normalize, glm.inversesqrt, glm.dot, Vec3.muls] at hcos hsin ⊢
  rw [hcos, hsin, hfx, hfz]
  ext
  · simp
  · simp
  · simp

/-- Witness of C12: with W and D held (moving towards -Z and +X), the nose of
the initial player points along the normalized (1, 0, -1). -/
theorem player_faces_swim_direction_witness :
    ((moveIntent (windowHoldingKeys [GLFW_KEY_W, GLFW_KEY_D]) : Vec3 ℝ).x ≠ 0 ∨
      (moveIntent (windowHoldingKeys [GLFW_KEY_W, GLFW_KEY_D]) : Vec3 ℝ).z ≠ 0) ∧
    (⟨Real.cos (processInput realMath (windowHoldingKeys [GLFW_KEY_W, GLFW_KEY_D]) 0.1
          (initialWorld : World ℝ).playerFish).angle, 0,
        -Real.sin (processInput realMath (windowHoldingKeys [GLFW_KEY_W, GLFW_KEY_D]) 0.1
          (initialWorld : World ℝ).playerFish).angle⟩ : Vec3 ℝ)
      = glm.normalize realMath
          ⟨(moveIntent (windowHoldingKeys [GLFW_KEY_W, GLFW_KEY_D]) : Vec3 ℝ).x, 0,
            (moveIntent (windowHoldingKeys [GLFW_KEY_W, GLFW_KEY_D]) : Vec3 ℝ).z⟩ :=
  have hne : (moveIntent (windowHoldingKeys [GLFW_KEY_W, GLFW_KEY_D]) : Vec3 ℝ).x ≠ 0 ∨
      (moveIntent (windowHoldingKeys [GLFW_KEY_W, GLFW_KEY_D]) : Vec3 ℝ).z ≠ 0 := by
    left
    norm_num [moveIntent, windowHoldingKeys, Vec3.splat, GLFW_KEY_W, GLFW_KEY_D, GLFW_KEY_S,
      GLFW_KEY_A, GLFW_KEY_SPACE, GLFW_KEY_LEFT_SHIFT, GLFW_PRESS, GLFW_RELEASE]
  ⟨hne, (player_faces_swim_direction (windowHoldingKeys [GLFW_KEY_W, GLFW_KEY_D]) 0.1
    (initialWorld : World ℝ).playerFish (initialWorld : World ℝ).playerFish.position hne).2.2.2.2⟩

end Theorems

end Aquarium
